import Mathlib

/-!
Verification of the Tabular Import Validation & Normalization Engine of
`excel_automate` (`app/formatting.py`).

The engine is embedded shallowly:

* a spreadsheet cell value (`PyVal`) is `none` (Python `None`), a number
  (Python `int`/`float`, modelled as `ℚ`), a string, or an
  already-structured date/time (`pd.Timestamp`/`datetime`, modelled as the
  rational number of days since the spreadsheet epoch 1899-12-30, a
  fractional part standing for the time of day);
* a worksheet is a list of rows of cells (`Ws`), 1-indexed like openpyxl;
* `parse_date`, `validate_and_format_dates_inplace` and
  `process_and_validate_excel` are translated function by function.

Library calls are modelled from their documented behaviour:
`pd.to_datetime(value, unit="D", origin="1899-12-30")` is the identity on
the day count inside the representable `pd.Timestamp` range (the signed
64-bit nanosecond window 1677-09-21 00:12:43.145224193 to 2262-04-11
23:47:16.854775807) and raises `OutOfBoundsDatetime`, a `ValueError`
subclass, outside it; free-text parsing (`pd.to_datetime(s, dayfirst=True)`
with the `dateutil` fallback, which accepts the same numeric-triple strings
— also beyond the `pd.Timestamp` window, up to the `datetime` year limit
9999 — and is therefore collapsed into one parser) is modelled for numeric
day-month-year triples separated by `-`, `/` or `.`, with a leading group
of more than two digits read year-first, the standard two-digit-year
pivot (00–68 ↦ 2000s, 69–99 ↦ 1900s), and the year constrained to the
`datetime` range 1..9999.
-/

deriving instance DecidableEq for Except

namespace ExcelAutomate

/-- A Python value that can appear in a spreadsheet cell. -/
inductive PyVal where
  | none
  | num (q : ℚ)
  | str (s : String)
  | date (t : ℚ)
deriving DecidableEq

/-- Python truthiness of a cell value (`if header:` etc.). -/
def pyTruthy : PyVal → Bool
  | .none => false
  | .num q => q ≠ 0
  | .str s => s ≠ ""
  | .date _ => true

/-- Python `str()` of a cell value.  Numbers print like floats, dates like
timestamps; the exact rendering of non-strings only has to avoid being
empty, which is all the code depends on. -/
def pyStr : PyVal → String
  | .none => "None"
  | .num q => toString q.num ++ (if q.den = 1 then ".0" else "/" ++ toString q.den)
  | .str s => s
  | .date t => "Timestamp(" ++ toString t.num ++ "/" ++ toString t.den ++ ")"

/-- Python `str.strip()` on a character list. -/
def stripChars (l : List Char) : List Char :=
  ((l.dropWhile Char.isWhitespace).reverse.dropWhile Char.isWhitespace).reverse

/-- Python `str.strip()` on a string. -/
def pyStrip (s : String) : String := String.mk (stripChars s.toList)

/-- ASCII lower-casing of one character. -/
def charLower (c : Char) : Char :=
  if 'A' ≤ c ∧ c ≤ 'Z' then Char.ofNat (c.toNat + 32) else c

/-- Python `str.lower()` (ASCII suffices for the literals compared). -/
def pyLower (s : String) : String := String.mk (s.toList.map charLower)

/-! ### Civil-calendar arithmetic

Day counts relative to 1970-01-01, the standard civil-from-days algorithm
specialised to `Int` truncating division (both operands the algorithm
divides are arranged non-negative). -/

def isLeap (y : Int) : Bool := (y % 4 == 0 && y % 100 != 0) || y % 400 == 0

def daysInMonth (y m : Int) : Int :=
  if m = 1 ∨ m = 3 ∨ m = 5 ∨ m = 7 ∨ m = 8 ∨ m = 10 ∨ m = 12 then 31
  else if m = 4 ∨ m = 6 ∨ m = 9 ∨ m = 11 then 30
  else if isLeap y then 29 else 28

/-- Days from 1970-01-01 to the civil date `y-m-d`. -/
def daysFromCivil (y m d : Int) : Int :=
  let y' : Int := if m ≤ 2 then y - 1 else y
  let era : Int := (if 0 ≤ y' then y' else y' - 399) / 400
  let yoe : Int := y' - era * 400
  let mp : Int := (m + 9) % 12
  let doy : Int := (153 * mp + 2) / 5 + d - 1
  let doe : Int := yoe * 365 + yoe / 4 - yoe / 100 + doy
  era * 146097 + doe - 719468

/-- The 1900-system spreadsheet epoch anchor used by the code
(`origin="1899-12-30"`), as a day count from 1970-01-01. -/
def epochDays : Int := daysFromCivil 1899 12 30

/-- The spreadsheet serial number of the civil date `y-m-d`: days since
1899-12-30. -/
def excelSerial (y m d : Int) : Int := daysFromCivil y m d - epochDays

/-- `1 ≤ m ≤ 12` and `1 ≤ d ≤` length of month `m` of year `y`. -/
def validCivil (y m d : Int) : Bool :=
  1 ≤ m && m ≤ 12 && 1 ≤ d && d ≤ daysInMonth y m

/-! ### The representable `pd.Timestamp` range

A `pd.Timestamp` stores nanoseconds since 1970-01-01 in a signed 64-bit
integer, so `pd.to_datetime(value, unit="D", origin="1899-12-30")` can
only materialise instants between `pd.Timestamp.min`
(1677-09-21 00:12:43.145224193) and `pd.Timestamp.max`
(2262-04-11 23:47:16.854775807); a day count landing outside raises
`OutOfBoundsDatetime`, a `ValueError` subclass. -/

/-- `pd.Timestamp.min.value` (nanoseconds since 1970-01-01). -/
def TS_MIN_NANOS : Int := -9223372036854775807

/-- `pd.Timestamp.max.value` (nanoseconds since 1970-01-01). -/
def TS_MAX_NANOS : Int := 9223372036854775807

/-- Whether the day count `q` (since 1899-12-30) lands inside the
representable `pd.Timestamp` range, i.e. whether the nanosecond count
`(q + epochDays) * 86400000000000` of its instant lies between
`TS_MIN_NANOS` and `TS_MAX_NANOS`: the inequalities are written with the
positive denominator of `q` cleared, so that they evaluate by integer
arithmetic. -/
def tsInBounds (q : ℚ) : Bool :=
  decide (TS_MIN_NANOS * (q.den : Int) ≤
    (q.num + epochDays * (q.den : Int)) * 86400000000000) &&
  decide ((q.num + epochDays * (q.den : Int)) * 86400000000000 ≤
    TS_MAX_NANOS * (q.den : Int))

/-! ### Free-text date parsing -/

def digitVal (c : Char) : Nat := c.toNat - 48

/-- Value of a digit string, most significant first. -/
def digitsToNat (l : List Char) : Nat :=
  l.foldl (fun a c => a * 10 + digitVal c) 0

def isDigitList (l : List Char) : Bool := !l.isEmpty && l.all Char.isDigit

def parseNatDigits (l : List Char) : Option Nat :=
  if isDigitList l then some (digitsToNat l) else none

def digitChar (n : Nat) : Char := Char.ofNat (48 + n % 10)

/-- Decimal rendering, fuelled so that it reduces in the kernel; any fuel
above the value works and `renderNat` passes `n + 1`. -/
def renderNatAux : Nat → Nat → List Char
  | _, 0 => []
  | n, fuel + 1 =>
    if n < 10 then [digitChar n]
    else renderNatAux (n / 10) fuel ++ [digitChar (n % 10)]

/-- Decimal rendering of a natural number, most significant digit first. -/
def renderNat (n : Nat) : List Char := renderNatAux n (n + 1)

/-- `s.replace("/", "-").replace(".", "-")`, character by character. -/
def normSep (c : Char) : Char := if c = '/' ∨ c = '.' then '-' else c

/-- Split a character list at every `'-'`. -/
def splitDash : List Char → List (List Char)
  | [] => [[]]
  | c :: rest =>
    if c = '-' then [] :: splitDash rest
    else
      match splitDash rest with
      | [] => [[c]]
      | g :: gs => (c :: g) :: gs

/-- The two-digit-year pivot of the underlying text parser: years below
100 are placed in the 2000s up to 68 and in the 1900s from 69. -/
def adjustYear (y : Nat) : Nat :=
  if y < 100 then (if y ≤ 68 then 2000 + y else 1900 + y) else y

/-- Day-first parsing of a separator-normalised text date, as performed by
`pd.to_datetime(s, dayfirst=True)` (and its `dateutil` fallback) on
numeric triples: result is the serial day count since 1899-12-30.  Inside
the `pd.Timestamp` window the first parser succeeds; outside it the
`dateutil` fallback builds a plain `datetime` of the same calendar day,
so a single year bound remains: the `datetime` limit 1..9999, past which
both parsers raise. -/
def parseTextDate (l : List Char) : Option ℚ :=
  match splitDash (l.map normSep) with
  | [g1, g2, g3] =>
    match parseNatDigits g1, parseNatDigits g2, parseNatDigits g3 with
    | some a, some b, some c =>
      let ymd : Int × Int × Int :=
        if 3 ≤ g1.length then ((a : Int), (b : Int), (c : Int))
        else ((adjustYear c : Int), (b : Int), (a : Int))
      if validCivil ymd.1 ymd.2.1 ymd.2.2 then
        if 1 ≤ ymd.1 ∧ ymd.1 ≤ 9999 then
          some ((excelSerial ymd.1 ymd.2.1 ymd.2.2 : Int) : ℚ)
        else none
      else none
    | _, _, _ => none
  | _ => none

/-- `pd.isna` on a cell value: true exactly for `None` (the model has no
float NaN). -/
def pdIsna : PyVal → Bool
  | .none => true
  | _ => false

/-- Whether the value is an already-structured `datetime`/`Timestamp`. -/
def isDatetime : PyVal → Bool
  | .date _ => true
  | _ => false

/-- `parse_date` of `app/formatting.py`: empty check, spreadsheet serial
(rejected with `OutOfBoundsDatetime` — whose message is abbreviated to its
stable prefix — when the day count falls outside the representable
`pd.Timestamp` range), datetime passthrough, then separator-normalised
day-first text parsing. -/
def parse_date (value : PyVal) : Except String ℚ :=
  if pdIsna value = true ∨ pyStrip (pyStr value) = "" then .error "Date is empty"
  else match value with
  | .num q =>
    if tsInBounds q then .ok q
    else .error "Out of bounds nanosecond timestamp"
  | .date t => .ok t
  | .str s =>
    match parseTextDate (stripChars s.toList) with
    | some t => .ok t
    | Option.none => .error ("Invalid date format: " ++ s)
  | .none => .error "Date is empty"

/-! ### Fixed vocabulary (module constants of `app/formatting.py`) -/

def MANDATORY_HEADERS : List String :=
  ["Employee Id", "Options Granted", "Plan Name", "Date Of Grant",
   "Grant Price", "Vesting Template", "Vesting Date Type"]

def VESTING_DATE_TYPE_OPTS : List String :=
  ["GrantDate", "CustomDate", "EmployeeJoiningDate"]

def ACTUAL_VESTING_DAY_OPTS : List String :=
  ["SAME_DAY", "NEXT_DAY", "PREVIOUS_DAY", "STARTING_OF_MONTH", "END_OF_MONTH"]

/-- `DATE_FORMATS["Date Of Grant"]`. -/
def GRANT_DATE_FORMAT : String := "D/M/YYYY"

/-- `DATE_FORMATS["Vesting Date"]`. -/
def VESTING_DATE_FORMAT : String := "d-m-yyyy"

/-! ### Worksheet model (openpyxl, 1-indexed rows and columns) -/

/-- An openpyxl cell: its value and its number-format string. -/
structure Cell where
  value : PyVal
  numberFormat : String
deriving DecidableEq

/-- A cell never assigned: value `None`, default format. -/
def emptyCell : Cell := ⟨.none, "General"⟩

/-- A worksheet: the list of its rows (row 1 is the header row). -/
structure Ws where
  rows : List (List Cell)
deriving DecidableEq

/-- Cell `c` (1-based) of one row; reading past the end gives the empty
cell, as openpyxl materialises missing cells with value `None`. -/
def getInRow : List Cell → Nat → Cell
  | [], _ => emptyCell
  | _ :: _, 0 => emptyCell
  | x :: _, 1 => x
  | _ :: rest, Nat.succ (Nat.succ n) => getInRow rest (Nat.succ n)

/-- Write cell `c` (1-based) of one row, padding with empty cells if the
row is shorter. -/
def setInRow : List Cell → Nat → Cell → List Cell
  | row, 0, _ => row
  | [], 1, x => [x]
  | [], Nat.succ (Nat.succ n), x => emptyCell :: setInRow [] (Nat.succ n) x
  | _ :: rest, 1, x => x :: rest
  | y :: rest, Nat.succ (Nat.succ n), x => y :: setInRow rest (Nat.succ n) x

/-- Row `r` (1-based) of the row list, `[]` when out of range. -/
def getRow : List (List Cell) → Nat → List Cell
  | [], _ => []
  | _ :: _, 0 => []
  | row :: _, 1 => row
  | _ :: rest, Nat.succ (Nat.succ n) => getRow rest (Nat.succ n)

/-- Write cell `(r, c)` of the row list, padding with empty rows if
needed. -/
def setInRows : List (List Cell) → Nat → Nat → Cell → List (List Cell)
  | rows, 0, _, _ => rows
  | [], 1, c, x => [setInRow [] c x]
  | [], Nat.succ (Nat.succ n), c, x => [] :: setInRows [] (Nat.succ n) c x
  | row :: rest, 1, c, x => setInRow row c x :: rest
  | row :: rest, Nat.succ (Nat.succ n), c, x => row :: setInRows rest (Nat.succ n) c x

/-- `ws.cell(row=r, column=c)` (read). -/
def Ws.cell (ws : Ws) (r c : Nat) : Cell := getInRow (getRow ws.rows r) c

/-- Assignment to `ws.cell(row=r, column=c)`. -/
def Ws.set (ws : Ws) (r c : Nat) (x : Cell) : Ws := ⟨setInRows ws.rows r c x⟩

/-- `ws.max_row`. -/
def Ws.maxRow (ws : Ws) : Nat := ws.rows.length

/-- `ws.max_column`. -/
def Ws.maxColumn (ws : Ws) : Nat := (ws.rows.map List.length).foldr max 0

/-- The header map built from row 1 (`headers[str(header).strip()] =
col_idx` for every truthy first-row value); represented as the
association list in column order, a later binding overriding an earlier
one with the same name as in a Python dict. -/
def buildHeaders (ws : Ws) : List (String × Nat) :=
  (List.range' 1 ws.maxColumn).filterMap fun c =>
    let h := (ws.cell 1 c).value
    if pyTruthy h then some (pyStrip (pyStr h), c) else Option.none

/-- `headers.get(name)` with Python-dict override semantics. -/
def lookupHeader (hs : List (String × Nat)) (name : String) : Option Nat :=
  (hs.reverse.find? (fun p => p.1 = name)).map (·.2)

/-! ### Numbers -/

/-- Unsigned decimal numeral (digits, optionally with one dot). -/
def parseUnsignedDecimal (l : List Char) : Option ℚ :=
  let ip := l.takeWhile Char.isDigit
  let rest := l.dropWhile Char.isDigit
  match rest with
  | [] => if ip.isEmpty then Option.none else some ((digitsToNat ip : ℚ))
  | '.' :: fp =>
    if fp.all Char.isDigit ∧ (¬ ip.isEmpty ∨ ¬ fp.isEmpty) then
      some ((digitsToNat ip : ℚ) + (digitsToNat fp : ℚ) / (10 : ℚ) ^ fp.length)
    else Option.none
  | _ => Option.none

/-- Signed decimal numeral. -/
def parseDecimal (l : List Char) : Option ℚ :=
  match l with
  | '-' :: rest => (parseUnsignedDecimal rest).map Neg.neg
  | '+' :: rest => parseUnsignedDecimal rest
  | _ => parseUnsignedDecimal l

/-- Python `float(v)`: numbers pass through, strings parse as stripped
decimal numerals (scientific notation is not modelled), `None` and
datetimes raise (`TypeError`), modelled as `none`. -/
def pyFloat : PyVal → Option ℚ
  | .num q => some q
  | .str s => parseDecimal (stripChars s.toList)
  | _ => Option.none

/-! ### Schema registry (`company.json`) -/

/-- One tenant's entry in the JSON DB; either array may be missing in a
malformed entry. -/
structure CompanyEntry where
  plan_names : Option (List String)
  vesting_templates : Option (List String)
deriving DecidableEq

/-- `json_db[company_key]["plan_names"]` / `["vesting_templates"]` under
the bare `except:`: a missing tenant key or a missing array yields
`none`. -/
def resolveCompany (db : List (String × CompanyEntry)) (key : String) :
    Option (List String × List String) := do
  let e ← (db.find? (fun p => p.1 = key)).map (·.2)
  let p ← e.plan_names
  let t ← e.vesting_templates
  pure (p, t)

/-! ### Validation report -/

/-- The `error_report` dict: status, file-level errors, and per-row error
sets keyed by the string of the 1-based sheet row index. -/
structure Report where
  file_status : String
  file_errors : List String
  row_errors : List (String × List (String × String))
deriving DecidableEq

/-! ### Row validator: the nine field checks of
`validate_and_format_dates_inplace`, in source order.  Each check returns
the `row_err` entry it may add; the two date checks also return the
worksheet, which they may mutate. -/

/-- `Employee Id`: empty after strip (or a falsy cell), or the literal
strings nan/none, is an error. -/
def checkEmployeeId (hs : List (String × Nat)) (ws : Ws) (r : Nat) :
    Option (String × String) :=
  match lookupHeader hs "Employee Id" with
  | some col =>
    let emp := (ws.cell r col).value
    let s := if pyTruthy emp then pyStrip (pyStr emp) else ""
    if s = "" ∨ pyLower s = "nan" ∨ pyLower s = "none" then
      some ("Employee Id", "Field is empty.")
    else Option.none
  | Option.none => Option.none

/-- `Options Granted`: `float(v)` must succeed on a non-`None` value and
be a positive whole number. -/
def checkOptionsGranted (hs : List (String × Nat)) (ws : Ws) (r : Nat) :
    Option (String × String) :=
  match lookupHeader hs "Options Granted" with
  | some col =>
    match (ws.cell r col).value with
    | .none => some ("Options Granted", "Invalid number.")
    | v =>
      match pyFloat v with
      | some q =>
        if q ≤ 0 ∨ ¬ q.den = 1 then
          some ("Options Granted", "Must be whole number > 0.")
        else Option.none
      | Option.none => some ("Options Granted", "Invalid number.")
  | Option.none => Option.none

/-- `Plan Name`: non-empty and a member of the tenant's plan set. -/
def checkPlanName (hs : List (String × Nat)) (plans : List String)
    (ws : Ws) (r : Nat) : Option (String × String) :=
  match lookupHeader hs "Plan Name" with
  | some col =>
    let v := (ws.cell r col).value
    let s := if pyTruthy v then pyStrip (pyStr v) else ""
    if s = "" then some ("Plan Name", "Field is empty.")
    else if ¬ plans.contains s then some ("Plan Name", "Invalid Plan.")
    else Option.none
  | Option.none => Option.none

/-- `Date Of Grant`: a `None` cell errors with "Date is empty"; an
already-structured datetime only receives the display format; any other
value is parsed and, on success, overwritten with the parsed date; a
parse failure propagates the `ValueError` message. -/
def checkGrantDate (hs : List (String × Nat)) (ws : Ws) (r : Nat) :
    Ws × Option (String × String) :=
  match lookupHeader hs "Date Of Grant" with
  | some col =>
    let cell := ws.cell r col
    if cell.value = PyVal.none then (ws, some ("Date Of Grant", "Date is empty"))
    else if isDatetime cell.value then
      (ws.set r col { cell with numberFormat := GRANT_DATE_FORMAT }, Option.none)
    else
      match parse_date cell.value with
      | .ok t => (ws.set r col ⟨.date t, GRANT_DATE_FORMAT⟩, Option.none)
      | .error msg => (ws, some ("Date Of Grant", msg))
  | Option.none => (ws, Option.none)

/-- `Grant Price`: `float(v)` must succeed on a non-`None` value. -/
def checkGrantPrice (hs : List (String × Nat)) (ws : Ws) (r : Nat) :
    Option (String × String) :=
  match lookupHeader hs "Grant Price" with
  | some col =>
    match (ws.cell r col).value with
    | .none => some ("Grant Price", "Must be number.")
    | v =>
      match pyFloat v with
      | some _ => Option.none
      | Option.none => some ("Grant Price", "Must be number.")
  | Option.none => Option.none

/-- `Vesting Template`: non-empty and a member of the tenant's template
set. -/
def checkVestingTemplate (hs : List (String × Nat)) (templates : List String)
    (ws : Ws) (r : Nat) : Option (String × String) :=
  match lookupHeader hs "Vesting Template" with
  | some col =>
    let v := (ws.cell r col).value
    let s := if pyTruthy v then pyStrip (pyStr v) else ""
    if s = "" then some ("Vesting Template", "Field is empty.")
    else if ¬ templates.contains s then some ("Vesting Template", "Invalid Template.")
    else Option.none
  | Option.none => Option.none

/-- `Vesting Date Type`: must belong to the fixed enumeration.  Also
returns the stripped type string (`None` when the column is absent),
consulted by the vesting-date check. -/
def checkVestingDateType (hs : List (String × Nat)) (ws : Ws) (r : Nat) :
    Option String × Option (String × String) :=
  match lookupHeader hs "Vesting Date Type" with
  | some col =>
    let v := (ws.cell r col).value
    let s := if pyTruthy v then pyStrip (pyStr v) else ""
    (some s,
     if ¬ VESTING_DATE_TYPE_OPTS.contains s then
       some ("Vesting Date Type", "Invalid Type.")
     else Option.none)
  | Option.none => (Option.none, Option.none)

/-- `Vesting Date`: checked only when the row's vesting-date type equals
"CustomDate"; then a `None` cell, or a parse failure, errors with
"Invalid/Empty Date.", a datetime only receives the display format, and
any other parseable value is overwritten with the parsed date. -/
def checkVestingDate (vtype : Option String) (hs : List (String × Nat))
    (ws : Ws) (r : Nat) : Ws × Option (String × String) :=
  if vtype = some "CustomDate" then
    match lookupHeader hs "Vesting Date" with
    | some col =>
      let cell := ws.cell r col
      if cell.value = PyVal.none then (ws, some ("Vesting Date", "Invalid/Empty Date."))
      else if isDatetime cell.value then
        (ws.set r col { cell with numberFormat := VESTING_DATE_FORMAT }, Option.none)
      else
        match parse_date cell.value with
        | .ok t => (ws.set r col ⟨.date t, VESTING_DATE_FORMAT⟩, Option.none)
        | .error _ => (ws, some ("Vesting Date", "Invalid/Empty Date."))
    | Option.none => (ws, Option.none)
  else (ws, Option.none)

/-- `Actual Vesting Day`: optional; a non-empty value must belong to the
fixed enumeration. -/
def checkActualVestingDay (hs : List (String × Nat)) (ws : Ws) (r : Nat) :
    Option (String × String) :=
  match lookupHeader hs "Actual Vesting Day" with
  | some col =>
    let v := (ws.cell r col).value
    let s := if pyTruthy v then pyStrip (pyStr v) else ""
    if s ≠ "" ∧ ¬ ACTUAL_VESTING_DAY_OPTS.contains s then
      some ("Actual Vesting Day", "Invalid Option.")
    else Option.none
  | Option.none => Option.none

/-- One iteration of the row loop: the nine field checks in program
order, the later checks reading the worksheet as already mutated by the
earlier ones, and the `row_err` dict as the ordered list of entries. -/
def processRow (hs : List (String × Nat)) (plans templates : List String)
    (ws : Ws) (r : Nat) : Ws × List (String × String) :=
  let e1 := checkEmployeeId hs ws r
  let e2 := checkOptionsGranted hs ws r
  let e3 := checkPlanName hs plans ws r
  let g := checkGrantDate hs ws r
  let e5 := checkGrantPrice hs g.1 r
  let e6 := checkVestingTemplate hs templates g.1 r
  let vt := checkVestingDateType hs g.1 r
  let v := checkVestingDate vt.1 hs g.1 r
  let e9 := checkActualVestingDay hs v.1 r
  (v.1, [e1, e2, e3, g.2, e5, e6, vt.2, v.2, e9].filterMap id)

/-- The row loop over the given sheet row indices, accumulating non-empty
`row_err` sets keyed by `str(row_idx)`. -/
def scanRows (hs : List (String × Nat)) (plans templates : List String) :
    Ws → List Nat → Ws × List (String × List (String × String))
  | ws, [] => (ws, [])
  | ws, r :: rest =>
    let p := processRow hs plans templates ws r
    let q := scanRows hs plans templates p.1 rest
    (q.1, (if p.2.isEmpty then [] else [(toString r, p.2)]) ++ q.2)

/-- `range(2, ws.max_row + 1)`. -/
def rowIndices (ws : Ws) : List Nat := List.range' 2 (ws.maxRow - 1)

/-- Outcome of one run of `validate_and_format_dates_inplace`: the
internal `error_report` at return time, the success flag, the in-memory
workbook after processing, and the file content after the call (saved
only on success). -/
structure RunOut where
  report : Report
  success : Bool
  mem : Ws
  disk : Ws
deriving DecidableEq

/-- The `missing` list: mandatory headers that did not resolve to a
column. -/
def missingHeaders (ws : Ws) : List String :=
  MANDATORY_HEADERS.filter (fun c => ¬ (lookupHeader (buildHeaders ws) c).isSome)

/-- `validate_and_format_dates_inplace(file_path, company_key, json_db)`,
with the workbook loaded from `file_path` passed explicitly. -/
def validate_and_format_dates_inplace (ws : Ws) (company_key : String)
    (json_db : List (String × CompanyEntry)) : RunOut :=
  if (missingHeaders ws).isEmpty then
    match resolveCompany json_db company_key with
    | Option.none =>
      ⟨⟨"Fatal Error", ["Company Key not found in JSON DB"], []⟩, false, ws, ws⟩
    | some (plans, templates) =>
      if (scanRows (buildHeaders ws) plans templates ws (rowIndices ws)).2.isEmpty then
        ⟨⟨"Valid", [], []⟩, true,
         (scanRows (buildHeaders ws) plans templates ws (rowIndices ws)).1,
         (scanRows (buildHeaders ws) plans templates ws (rowIndices ws)).1⟩
      else
        ⟨⟨"Has Errors", [], (scanRows (buildHeaders ws) plans templates ws (rowIndices ws)).2⟩,
         false, (scanRows (buildHeaders ws) plans templates ws (rowIndices ws)).1, ws⟩
  else
    ⟨⟨"Has Errors", (missingHeaders ws).map (fun c => "Missing mandatory column header: " ++ c), []⟩,
     false, ws, ws⟩

/-- The pair the Python function actually returns: `(None, True)` on
success, `(error_report, False)` on failure. -/
def returnedReport (o : RunOut) : Option Report × Bool :=
  (if o.success then Option.none else some o.report, o.success)

/-! ### Legacy variant: `process_and_validate_excel` over a DataFrame -/

/-- A pandas DataFrame: column labels and rectangular row data. -/
structure Df where
  columns : List String
  data : List (List PyVal)
deriving DecidableEq

/-- `row.get(col)`: the row's value under a column label, `none` when the
label is absent. -/
def rowGet (cols : List String) (row : List PyVal) (col : String) : Option PyVal :=
  (cols.findIdx? (fun c => c = col)).bind (fun i => row.get? i)

/-- `df.at[idx, col] = v` (0-based row index). -/
def dfSet (df : Df) (idx : Nat) (col : String) (v : PyVal) : Df :=
  match df.columns.findIdx? (fun c => c = col) with
  | some j =>
    ⟨df.columns, df.data.mapIdx (fun i row => if i = idx then row.set j v else row)⟩
  | Option.none => df

/-- One iteration of the legacy row loop (`for idx, row in
df.iterrows()` body), returning the possibly date-mutated frame and the
row's error entries in program order. -/
def legacyProcessRow (plans templates : List String) (df : Df) (idx : Nat) :
    Df × List (String × String) :=
  let cols := df.columns
  let row := df.data.getD idx []
  let e1 :=
    let s := pyStrip (pyStr ((rowGet cols row "Employee Id").getD (.str "")))
    if s = "" ∨ pyLower s = "nan" then some ("Employee Id", "Field is empty.")
    else Option.none
  let e2 :=
    match pyFloat ((rowGet cols row "Options Granted").getD .none) with
    | some q =>
      if q ≤ 0 ∨ ¬ q.den = 1 then some ("Options Granted", "Must be whole number > 0.")
      else Option.none
    | Option.none => some ("Options Granted", "Invalid number.")
  let e3 :=
    let s := pyStrip (pyStr ((rowGet cols row "Plan Name").getD (.str "")))
    if s = "" then some ("Plan Name", "Field is empty.")
    else if ¬ plans.contains s then some ("Plan Name", "Invalid Plan.")
    else Option.none
  let d4 :=
    match parse_date ((rowGet cols row "Date Of Grant").getD .none) with
    | .ok t => (dfSet df idx "Date Of Grant" (.date t), (Option.none : Option (String × String)))
    | .error msg => (df, some ("Date Of Grant", msg))
  let df1 := d4.1
  let e5 :=
    match pyFloat ((rowGet cols row "Grant Price").getD .none) with
    | some _ => Option.none
    | Option.none => some ("Grant Price", "Must be number.")
  let e6 :=
    let s := pyStrip (pyStr ((rowGet cols row "Vesting Template").getD (.str "")))
    if s = "" then some ("Vesting Template", "Field is empty.")
    else if ¬ templates.contains s then some ("Vesting Template", "Invalid Template.")
    else Option.none
  let vtype := pyStrip (pyStr ((rowGet cols row "Vesting Date Type").getD (.str "")))
  let e7 :=
    if ¬ VESTING_DATE_TYPE_OPTS.contains vtype then
      some ("Vesting Date Type", "Invalid Type.")
    else Option.none
  let d8 :=
    if vtype = "CustomDate" then
      match parse_date ((rowGet cols row "Vesting Date").getD .none) with
      | .ok t => (dfSet df1 idx "Vesting Date" (.date t), (Option.none : Option (String × String)))
      | .error _ => (df1, some ("Vesting Date", "Invalid/Empty Date."))
    else (df1, (Option.none : Option (String × String)))
  let e9 :=
    let s := pyStrip (pyStr ((rowGet cols row "Actual Vesting Day").getD (.str "")))
    if s ≠ "" ∧ ¬ ACTUAL_VESTING_DAY_OPTS.contains s then
      some ("Actual Vesting Day", "Invalid Option.")
    else Option.none
  (d8.1, [e1, e2, e3, d4.2, e5, e6, e7, d8.2, e9].filterMap id)

/-- The legacy row loop over 0-based frame indices; row errors are keyed
by `str(idx + 2)`. -/
def legacyScanRows (plans templates : List String) :
    Df → List Nat → Df × List (String × List (String × String))
  | df, [] => (df, [])
  | df, idx :: rest =>
    let p := legacyProcessRow plans templates df idx
    let q := legacyScanRows plans templates p.1 rest
    (q.1, (if p.2.isEmpty then [] else [(toString (idx + 2), p.2)]) ++ q.2)

/-- Model of `pd.to_datetime(column, errors="coerce")` as applied in the
success path of the legacy function: already-structured dates pass
through; every other value is modelled as coerced to `NaT` (`none`).  In
the success path of the theorems below this only ever meets structured
dates, so only the passthrough case is exercised. -/
def coerceDate : PyVal → PyVal
  | .date t => .date t
  | _ => .none

/-- `df[col] = pd.to_datetime(df[col], errors="coerce")` when `col` is
present. -/
def coerceCol (df : Df) (col : String) : Df :=
  match df.columns.findIdx? (fun c => c = col) with
  | some j =>
    ⟨df.columns, df.data.map (fun row => row.set j (coerceDate (row.getD j .none)))⟩
  | Option.none => df

/-- `process_and_validate_excel(df, company_key, json_db)`: header
normalisation, mandatory-header errors (without early return), schema
resolution with its fatal short-circuit, the row loop, and the final
date-column coercion on success.  Returns the `(error_report, df)` pair
of the source: `(report, None)` on failure, `(None, df)` on success. -/
def process_and_validate_excel (df0 : Df) (company_key : String)
    (json_db : List (String × CompanyEntry)) : Option Report × Option Df :=
  let df : Df := ⟨df0.columns.map pyStrip, df0.data⟩
  let missing := MANDATORY_HEADERS.filter (fun c => ¬ df.columns.contains c)
  let fileErrors :=
    if missing.isEmpty then ([] : List String)
    else missing.map (fun c => "Missing mandatory column header: " ++ c)
  match resolveCompany json_db company_key with
  | Option.none =>
    (some ⟨"Fatal Error", ["Company Key not found in JSON DB"], []⟩, Option.none)
  | some (plans, templates) =>
    let s := legacyScanRows plans templates df (List.range df.data.length)
    let status :=
      if s.2.isEmpty then (if missing.isEmpty then "Valid" else "Has Errors")
      else "Has Errors"
    if ¬ fileErrors.isEmpty ∨ ¬ s.2.isEmpty then
      (some ⟨status, fileErrors, s.2⟩, Option.none)
    else
      (Option.none, some (coerceCol (coerceCol s.1 "Date Of Grant") "Vesting Date"))

/-! ### A day-first text rendering of a civil date -/

/-- `"d-m-y"` with decimal components, the free-text day-first shape the
Date Normalizer accepts. -/
def renderDayFirst (d m y : Nat) : String :=
  String.mk (renderNat d ++ '-' :: (renderNat m ++ '-' :: renderNat y))

/-! ### Concrete fixtures used by witnesses and counterexamples -/

/-- A header cell. -/
def hdrCell (s : String) : Cell := ⟨.str s, "General"⟩

/-- Header row with the seven mandatory columns plus `Vesting Date`. -/
def fxHeaderRow : List Cell :=
  [hdrCell "Employee Id", hdrCell "Options Granted", hdrCell "Plan Name",
   hdrCell "Date Of Grant", hdrCell "Grant Price", hdrCell "Vesting Template",
   hdrCell "Vesting Date Type", hdrCell "Vesting Date"]

/-- A fully valid data row (vesting-date type `GrantDate`, empty vesting
date). -/
def fxValidRow : List Cell :=
  [⟨.str "E1", "General"⟩, ⟨.num 100, "General"⟩, ⟨.str "ESOP-A", "General"⟩,
   ⟨.str "31/01/2024", "General"⟩, ⟨.num 10, "General"⟩, ⟨.str "T1", "General"⟩,
   ⟨.str "GrantDate", "General"⟩, ⟨.none, "General"⟩]

/-- Like `fxValidRow` but with an unparseable supplied vesting date. -/
def fxBadVestRow : List Cell :=
  [⟨.str "E1", "General"⟩, ⟨.num 100, "General"⟩, ⟨.str "ESOP-A", "General"⟩,
   ⟨.str "31/01/2024", "General"⟩, ⟨.num 10, "General"⟩, ⟨.str "T1", "General"⟩,
   ⟨.str "GrantDate", "General"⟩, ⟨.str "not a date", "General"⟩]

/-- The tenant DB with one well-formed tenant `acme`. -/
def fxDbAcme : List (String × CompanyEntry) :=
  [("acme", ⟨some ["ESOP-A"], some ["T1"]⟩)]

/-- The tenant DB whose `acme` entry lacks the `plan_names` array. -/
def fxDbMalformed : List (String × CompanyEntry) :=
  [("acme", ⟨Option.none, some ["T1"]⟩)]

/-- A fully valid one-data-row workbook. -/
def fxWsOk : Ws := ⟨[fxHeaderRow, fxValidRow]⟩

/-- A workbook whose single data row supplies an invalid vesting date
under vesting-date type `GrantDate`. -/
def fxWsBadVest : Ws := ⟨[fxHeaderRow, fxBadVestRow]⟩

/-- Like `fxValidRow` but with vesting-date type `CustomDate` and an
empty vesting date. -/
def fxCustomRow : List Cell :=
  [⟨.str "E1", "General"⟩, ⟨.num 100, "General"⟩, ⟨.str "ESOP-A", "General"⟩,
   ⟨.str "31/01/2024", "General"⟩, ⟨.num 10, "General"⟩, ⟨.str "T1", "General"⟩,
   ⟨.str "CustomDate", "General"⟩, ⟨.none, "General"⟩]

/-- A workbook whose single data row requires a custom vesting date but
leaves it empty. -/
def fxWsCustomEmpty : Ws := ⟨[fxHeaderRow, fxCustomRow]⟩

/-- A workbook missing six of the seven mandatory headers. -/
def fxWsMissing : Ws := ⟨[[hdrCell "Employee Id"], [⟨.str "E1", "General"⟩]]⟩

/-- A one-row DataFrame for the legacy variant. -/
def fxDfSmall : Df := ⟨["Employee Id"], [[.str "E1"]]⟩

end ExcelAutomate

namespace ExcelAutomate

/-! ## Verification

Run-equation lemmas: the three control-flow outcomes of
`validate_and_format_dates_inplace`. -/

theorem run_header_fail {ws : Ws} {key : String} {db : List (String × CompanyEntry)}
    (h : missingHeaders ws ≠ []) :
    validate_and_format_dates_inplace ws key db =
      ⟨⟨"Has Errors",
        (missingHeaders ws).map (fun c => "Missing mandatory column header: " ++ c), []⟩,
       false, ws, ws⟩ := by
  unfold validate_and_format_dates_inplace
  rw [if_neg (by simp [List.isEmpty_iff, h])]

theorem run_fatal {ws : Ws} {key : String} {db : List (String × CompanyEntry)}
    (hh : missingHeaders ws = []) (hr : resolveCompany db key = Option.none) :
    validate_and_format_dates_inplace ws key db =
      ⟨⟨"Fatal Error", ["Company Key not found in JSON DB"], []⟩, false, ws, ws⟩ := by
  unfold validate_and_format_dates_inplace
  rw [if_pos (by simp [List.isEmpty_iff, hh]), hr]

theorem run_commit {ws : Ws} {key : String} {db : List (String × CompanyEntry)}
    {p t : List String}
    (hh : missingHeaders ws = []) (hr : resolveCompany db key = some (p, t))
    (hs : (scanRows (buildHeaders ws) p t ws (rowIndices ws)).2 = []) :
    validate_and_format_dates_inplace ws key db =
      ⟨⟨"Valid", [], []⟩, true,
       (scanRows (buildHeaders ws) p t ws (rowIndices ws)).1,
       (scanRows (buildHeaders ws) p t ws (rowIndices ws)).1⟩ := by
  unfold validate_and_format_dates_inplace
  rw [if_pos (by simp [List.isEmpty_iff, hh]), hr]
  dsimp only
  rw [if_pos (by simp [List.isEmpty_iff, hs])]

theorem run_rowfail {ws : Ws} {key : String} {db : List (String × CompanyEntry)}
    {p t : List String}
    (hh : missingHeaders ws = []) (hr : resolveCompany db key = some (p, t))
    (hs : (scanRows (buildHeaders ws) p t ws (rowIndices ws)).2 ≠ []) :
    validate_and_format_dates_inplace ws key db =
      ⟨⟨"Has Errors", [], (scanRows (buildHeaders ws) p t ws (rowIndices ws)).2⟩,
       false, (scanRows (buildHeaders ws) p t ws (rowIndices ws)).1, ws⟩ := by
  unfold validate_and_format_dates_inplace
  rw [if_pos (by simp [List.isEmpty_iff, hh]), hr]
  dsimp only
  rw [if_neg (by simp [List.isEmpty_iff, hs])]

/-- **C2.** A run persists the document exactly when it accumulated zero
file-level errors and zero row errors: the success flag holds iff both
error collections of the final report are empty, and the file content
after the call is the mutated workbook on success and the untouched
input workbook otherwise. -/
theorem commit_iff_no_errors (ws : Ws) (key : String)
    (db : List (String × CompanyEntry)) :
    ((validate_and_format_dates_inplace ws key db).success = true ↔
      ((validate_and_format_dates_inplace ws key db).report.file_errors = [] ∧
       (validate_and_format_dates_inplace ws key db).report.row_errors = [])) ∧
    (validate_and_format_dates_inplace ws key db).disk =
      (if (validate_and_format_dates_inplace ws key db).success = true then
        (validate_and_format_dates_inplace ws key db).mem
      else ws) := by
  by_cases hh : missingHeaders ws = []
  · cases hr : resolveCompany db key with
    | none => rw [run_fatal hh hr]; simp
    | some pt =>
      obtain ⟨p, t⟩ := pt
      by_cases hs : (scanRows (buildHeaders ws) p t ws (rowIndices ws)).2 = []
      · rw [run_commit hh hr hs]; simp
      · rw [run_rowfail hh hr hs]; simp [hs]
  · rw [run_header_fail hh]
    exact ⟨⟨fun h => by simp at h,
            fun h => absurd (List.map_eq_nil_iff.mp h.1) hh⟩, by simp⟩

/-- **C4.** A document missing at least one mandatory header is rejected
with status "Has Errors", one file error per missing header, an empty
row-error mapping, no mutation, and no save. -/
theorem missing_headers_reject (ws : Ws) (key : String)
    (db : List (String × CompanyEntry)) (h : missingHeaders ws ≠ []) :
    validate_and_format_dates_inplace ws key db =
      ⟨⟨"Has Errors",
        (missingHeaders ws).map (fun c => "Missing mandatory column header: " ++ c), []⟩,
       false, ws, ws⟩ :=
  run_header_fail h

/-- **C4 witness** at a workbook carrying only the `Employee Id`
header. -/
theorem missing_headers_reject_witness :
    validate_and_format_dates_inplace fxWsMissing "acme" fxDbAcme =
      ⟨⟨"Has Errors",
        ["Missing mandatory column header: Options Granted",
         "Missing mandatory column header: Plan Name",
         "Missing mandatory column header: Date Of Grant",
         "Missing mandatory column header: Grant Price",
         "Missing mandatory column header: Vesting Template",
         "Missing mandatory column header: Vesting Date Type"], []⟩,
       false, fxWsMissing, fxWsMissing⟩ := by
  rw [missing_headers_reject fxWsMissing "acme" fxDbAcme (by decide)]
  decide

/-- **C5.** When every mandatory header is present but the tenant key
does not resolve, the run returns status "Fatal Error" with the single
file error naming the unresolvable tenant, an empty row-error mapping,
no rows processed, no mutation, and no save. -/
theorem unknown_tenant_fatal (ws : Ws) (key : String)
    (db : List (String × CompanyEntry))
    (hh : missingHeaders ws = [])
    (hr : resolveCompany db key = Option.none) :
    validate_and_format_dates_inplace ws key db =
      ⟨⟨"Fatal Error", ["Company Key not found in JSON DB"], []⟩,
       false, ws, ws⟩ :=
  run_fatal hh hr

/-- **C5 witness** at a complete workbook and an absent tenant key. -/
theorem unknown_tenant_fatal_witness :
    validate_and_format_dates_inplace fxWsOk "ghost" fxDbAcme =
      ⟨⟨"Fatal Error", ["Company Key not found in JSON DB"], []⟩,
       false, fxWsOk, fxWsOk⟩ :=
  unknown_tenant_fatal fxWsOk "ghost" fxDbAcme (by decide) (by decide)

/-- **C6.** In every report the validator builds, the status is "Valid"
iff both the file-error list and the row-error mapping are empty, and
the status always lies in the three-valued set, so a non-empty error
collection forces "Has Errors" or "Fatal Error". -/
theorem status_valid_iff_no_errors (ws : Ws) (key : String)
    (db : List (String × CompanyEntry)) :
    ((validate_and_format_dates_inplace ws key db).report.file_status = "Valid" ↔
      ((validate_and_format_dates_inplace ws key db).report.file_errors = [] ∧
       (validate_and_format_dates_inplace ws key db).report.row_errors = [])) ∧
    ((validate_and_format_dates_inplace ws key db).report.file_status = "Valid" ∨
     (validate_and_format_dates_inplace ws key db).report.file_status = "Has Errors" ∨
     (validate_and_format_dates_inplace ws key db).report.file_status = "Fatal Error") := by
  by_cases hh : missingHeaders ws = []
  · cases hr : resolveCompany db key with
    | none => rw [run_fatal hh hr]; simp
    | some pt =>
      obtain ⟨p, t⟩ := pt
      by_cases hs : (scanRows (buildHeaders ws) p t ws (rowIndices ws)).2 = []
      · rw [run_commit hh hr hs]; simp
      · rw [run_rowfail hh hr hs]; simp [hs]
  · rw [run_header_fail hh]
    exact ⟨⟨fun h => by simp at h,
            fun h => absurd (List.map_eq_nil_iff.mp h.1) hh⟩, Or.inr (Or.inl rfl)⟩

/-- A tenant entry lacking either required array makes the guarded lookup
fail exactly like an absent key. -/
theorem resolveCompany_malformed {db : List (String × CompanyEntry)} {key : String}
    {e : CompanyEntry}
    (hfind : db.find? (fun p => p.1 = key) = some (key, e))
    (hmal : e.plan_names = Option.none ∨ e.vesting_templates = Option.none) :
    resolveCompany db key = Option.none := by
  unfold resolveCompany
  rw [hfind]
  rcases hmal with h | h
  · simp [h]
  · cases hp : e.plan_names <;> simp [hp, h]

/-- The legacy variant's fatal short-circuit. -/
theorem legacy_fatal {df : Df} {key : String} {db : List (String × CompanyEntry)}
    (hr : resolveCompany db key = Option.none) :
    process_and_validate_excel df key db =
      (some ⟨"Fatal Error", ["Company Key not found in JSON DB"], []⟩, Option.none) := by
  unfold process_and_validate_excel
  rw [hr]

/-- **C10.** A tenant entry present in the schema configuration but
lacking its `plan_names` or `vesting_templates` array is reported exactly
like an unknown tenant: both validator variants produce status "Fatal
Error" with the single file error "Company Key not found in JSON DB",
an empty row-error mapping, no rows processed and no mutation, and their
outputs coincide with a run against a configuration without the key. -/
theorem malformed_tenant_like_absent (ws : Ws) (df : Df) (key : String)
    (db : List (String × CompanyEntry)) (e : CompanyEntry)
    (hfind : db.find? (fun p => p.1 = key) = some (key, e))
    (hmal : e.plan_names = Option.none ∨ e.vesting_templates = Option.none)
    (hh : missingHeaders ws = []) :
    validate_and_format_dates_inplace ws key db = validate_and_format_dates_inplace ws key [] ∧
    validate_and_format_dates_inplace ws key db =
      ⟨⟨"Fatal Error", ["Company Key not found in JSON DB"], []⟩, false, ws, ws⟩ ∧
    process_and_validate_excel df key db = process_and_validate_excel df key [] ∧
    process_and_validate_excel df key db =
      (some ⟨"Fatal Error", ["Company Key not found in JSON DB"], []⟩, Option.none) := by
  have hr : resolveCompany db key = Option.none := resolveCompany_malformed hfind hmal
  have hr0 : resolveCompany [] key = Option.none := rfl
  refine ⟨?_, run_fatal hh hr, ?_, legacy_fatal hr⟩
  · rw [run_fatal hh hr, run_fatal hh hr0]
  · rw [legacy_fatal hr, legacy_fatal hr0]

/-- **C10 witness** at the `acme` entry lacking `plan_names`. -/
theorem malformed_tenant_like_absent_witness :
    validate_and_format_dates_inplace fxWsOk "acme" fxDbMalformed =
      validate_and_format_dates_inplace fxWsOk "acme" [] ∧
    validate_and_format_dates_inplace fxWsOk "acme" fxDbMalformed =
      ⟨⟨"Fatal Error", ["Company Key not found in JSON DB"], []⟩, false, fxWsOk, fxWsOk⟩ ∧
    process_and_validate_excel fxDfSmall "acme" fxDbMalformed =
      process_and_validate_excel fxDfSmall "acme" [] ∧
    process_and_validate_excel fxDfSmall "acme" fxDbMalformed =
      (some ⟨"Fatal Error", ["Company Key not found in JSON DB"], []⟩, Option.none) :=
  malformed_tenant_like_absent fxWsOk fxDfSmall "acme" fxDbMalformed
    ⟨Option.none, some ["T1"]⟩ (by decide) (Or.inl rfl) (by decide)

/-! ### Digit strings, splitting and stripping -/

theorem foldl_digits_shift (l : List Char) :
    ∀ a : Nat, l.foldl (fun a c => a * 10 + digitVal c) a =
      a * 10 ^ l.length + l.foldl (fun a c => a * 10 + digitVal c) 0 := by
  induction l with
  | nil => intro a; simp
  | cons c rest ih =>
    intro a
    simp only [List.foldl_cons, List.length_cons]
    rw [ih (a * 10 + digitVal c), ih (0 * 10 + digitVal c)]
    ring

theorem digitsToNat_append (l1 l2 : List Char) :
    digitsToNat (l1 ++ l2) = digitsToNat l1 * 10 ^ l2.length + digitsToNat l2 := by
  unfold digitsToNat
  rw [List.foldl_append, foldl_digits_shift l2 (l1.foldl _ 0)]

theorem renderNatAux_congr :
    ∀ fuel1 fuel2 n, n < fuel1 → n < fuel2 →
      renderNatAux n fuel1 = renderNatAux n fuel2 := by
  intro fuel1
  induction fuel1 with
  | zero => omega
  | succ f ih =>
    intro fuel2 n h1 h2
    cases fuel2 with
    | zero => omega
    | succ g =>
      show (if n < 10 then _ else _) = (if n < 10 then _ else _)
      by_cases h : n < 10
      · rw [if_pos h, if_pos h]
      · rw [if_neg h, if_neg h,
          ih g (n / 10) (by omega) (by omega)]

theorem renderNat_eq (n : Nat) :
    renderNat n =
      if n < 10 then [digitChar n]
      else renderNat (n / 10) ++ [digitChar (n % 10)] := by
  show renderNatAux n (n + 1) = _
  by_cases h : n < 10
  · show (if n < 10 then _ else _) = _
    rw [if_pos h, if_pos h]
  · show (if n < 10 then _ else _) = _
    rw [if_neg h, if_neg h,
      renderNatAux_congr n (n / 10 + 1) (n / 10) (by omega) (by omega)]
    rfl

theorem digitChar_props (n : Nat) :
    (digitChar n).isDigit = true ∧ digitVal (digitChar n) = n % 10 ∧
    normSep (digitChar n) = digitChar n ∧ (digitChar n).isWhitespace = false ∧
    ¬ digitChar n = '-' := by
  have h : n % 10 < 10 := Nat.mod_lt _ (by omega)
  unfold digitChar digitVal normSep
  revert h
  generalize n % 10 = k
  intro h
  interval_cases k <;> exact ⟨by decide, by decide, by decide, by decide, by decide⟩

theorem renderNat_mem_props (n : Nat) :
    ∀ c ∈ renderNat n,
      c.isDigit = true ∧ normSep c = c ∧ c.isWhitespace = false ∧ ¬ c = '-' := by
  induction n using Nat.strong_induction_on with
  | _ n ih =>
    intro c hc
    by_cases h : n < 10
    · rw [renderNat_eq, if_pos h] at hc
      simp only [List.mem_singleton] at hc
      subst hc
      exact ⟨(digitChar_props n).1, (digitChar_props n).2.2.1,
        (digitChar_props n).2.2.2.1, (digitChar_props n).2.2.2.2⟩
    · rw [renderNat_eq, if_neg h] at hc
      rcases List.mem_append.mp hc with hc | hc
      · exact ih (n / 10) (Nat.div_lt_self (by omega) (by omega)) c hc
      · simp only [List.mem_singleton] at hc
        subst hc
        exact ⟨(digitChar_props _).1, (digitChar_props _).2.2.1,
          (digitChar_props _).2.2.2.1, (digitChar_props _).2.2.2.2⟩

theorem renderNat_ne_nil (n : Nat) : renderNat n ≠ [] := by
  by_cases h : n < 10
  · rw [renderNat_eq, if_pos h]; simp
  · rw [renderNat_eq, if_neg h]; simp

theorem digitsToNat_renderNat (n : Nat) : digitsToNat (renderNat n) = n := by
  induction n using Nat.strong_induction_on with
  | _ n ih =>
    by_cases h : n < 10
    · rw [renderNat_eq, if_pos h]
      show List.foldl _ 0 [digitChar n] = n
      simp only [List.foldl_cons, List.foldl_nil]
      rw [show (0 : Nat) * 10 + digitVal (digitChar n) = digitVal (digitChar n) by omega,
        (digitChar_props n).2.1]
      omega
    · rw [renderNat_eq, if_neg h, digitsToNat_append,
        ih (n / 10) (Nat.div_lt_self (by omega) (by omega))]
      show n / 10 * 10 ^ 1 + digitsToNat [digitChar (n % 10)] = n
      have : digitsToNat [digitChar (n % 10)] = n % 10 % 10 := by
        show (0 : Nat) * 10 + digitVal (digitChar (n % 10)) = n % 10 % 10
        rw [(digitChar_props (n % 10)).2.1]
        omega
      rw [this]
      omega

theorem renderNat_length_le (n : Nat) (h : n < 100) : (renderNat n).length ≤ 2 := by
  by_cases h1 : n < 10
  · rw [renderNat_eq, if_pos h1]; simp
  · rw [renderNat_eq, if_neg h1]
    have h2 : n / 10 < 10 := by omega
    rw [renderNat_eq, if_pos h2]
    simp

theorem parseNatDigits_renderNat (n : Nat) : parseNatDigits (renderNat n) = some n := by
  unfold parseNatDigits
  rw [if_pos, digitsToNat_renderNat]
  unfold isDigitList
  rw [Bool.and_eq_true]
  constructor
  · simpa [List.isEmpty_iff] using renderNat_ne_nil n
  · rw [List.all_eq_true]
    exact fun c hc => (renderNat_mem_props n c hc).1

theorem splitDash_ne_nil (l : List Char) : splitDash l ≠ [] := by
  cases l with
  | nil => simp [splitDash]
  | cons c rest =>
    unfold splitDash
    by_cases h : c = '-'
    · rw [if_pos h]; simp
    · rw [if_neg h]
      cases hs : splitDash rest <;> simp

theorem splitDash_append {xs l g : List Char} {gs : List (List Char)}
    (h : ∀ c ∈ xs, ¬ c = '-') (hl : splitDash l = g :: gs) :
    splitDash (xs ++ l) = (xs ++ g) :: gs := by
  induction xs with
  | nil => simpa using hl
  | cons c rest ih =>
    have h2 := ih (fun x hx => h x (List.mem_cons_of_mem _ hx))
    simp only [List.cons_append, splitDash,
      if_neg (h c (List.mem_cons_self c rest)), List.append_eq, h2]

theorem splitDash_nodash {l : List Char} (h : ∀ c ∈ l, ¬ c = '-') :
    splitDash l = [l] := by
  have := splitDash_append h (show splitDash [] = [] :: [] from rfl)
  simpa using this

theorem splitDash_three {a b c : List Char}
    (ha : ∀ x ∈ a, ¬ x = '-') (hb : ∀ x ∈ b, ¬ x = '-') (hc : ∀ x ∈ c, ¬ x = '-') :
    splitDash (a ++ '-' :: (b ++ '-' :: c)) = [a, b, c] := by
  have h1 : splitDash ('-' :: c) = [] :: [c] := by
    unfold splitDash
    rw [if_pos rfl, splitDash_nodash hc]
  have h2 : splitDash (b ++ '-' :: c) = [b] ++ [[], c].tail := by
    rw [splitDash_append hb h1]; simp
  have h3 : splitDash ('-' :: (b ++ '-' :: c)) = [] :: ([b, c]) := by
    unfold splitDash
    rw [if_pos rfl]
    simpa using h2
  have h4 := splitDash_append ha h3
  simpa using h4

theorem dropWhile_id_of_not {p : Char → Bool} {l : List Char}
    (h : ∀ c ∈ l, p c = false) : l.dropWhile p = l := by
  cases l with
  | nil => rfl
  | cons c rest =>
    rw [List.dropWhile_cons, if_neg (by simp [h c (List.mem_cons_self c rest)])]

theorem stripChars_eq_self {l : List Char}
    (h : ∀ c ∈ l, c.isWhitespace = false) : stripChars l = l := by
  unfold stripChars
  rw [dropWhile_id_of_not h,
    dropWhile_id_of_not (fun c hc => h c (List.mem_reverse.mp hc)),
    List.reverse_reverse]

theorem stripChars_eq_nil_iff {l : List Char} :
    stripChars l = [] ↔ ∀ c ∈ l, c.isWhitespace = true := by
  unfold stripChars
  rw [List.reverse_eq_nil_iff, List.dropWhile_eq_nil_iff]
  constructor
  · intro h c hc
    have hdecomp := List.takeWhile_append_dropWhile (p := Char.isWhitespace) (l := l)
    rw [← hdecomp] at hc
    rcases List.mem_append.mp hc with hc | hc
    · exact List.mem_takeWhile_imp hc
    · exact h c (List.mem_reverse.mpr hc)
  · intro h c hc
    exact h c ((List.dropWhile_sublist _).mem (List.mem_reverse.mp hc))

theorem toList_append (a b : String) : (a ++ b).toList = a.toList ++ b.toList :=
  String.data_append a b

theorem pyStrip_ne_empty {s : String} {c : Char}
    (hc : c ∈ s.toList) (hw : c.isWhitespace = false) : ¬ pyStrip s = "" := by
  unfold pyStrip
  intro h
  have h2 : stripChars s.toList = [] := by
    have := congrArg String.data h
    simpa using this
  have := stripChars_eq_nil_iff.mp h2 c hc
  rw [hw] at this
  exact absurd this (by decide)

theorem parse_date_num_not_blank (q : ℚ) :
    ¬ (pdIsna (PyVal.num q) = true ∨ pyStrip (pyStr (PyVal.num q)) = "") := by
  rintro (h | h)
  · simp [pdIsna] at h
  · refine pyStrip_ne_empty (c := if q.den = 1 then '.' else '/') ?_ (by split <;> decide) h
    show _ ∈ (pyStr (.num q)).toList
    unfold pyStr
    rw [toList_append]
    split
    · exact List.mem_append_right _ (by decide)
    · rw [toList_append]
      exact List.mem_append_right _ (List.mem_append_left _ (by decide))

theorem parse_date_num (q : ℚ) (hq : tsInBounds q = true) :
    parse_date (.num q) = Except.ok q := by
  unfold parse_date
  rw [if_neg (parse_date_num_not_blank q)]
  show (if tsInBounds q = true then (Except.ok q : Except String ℚ)
      else Except.error "Out of bounds nanosecond timestamp") = Except.ok q
  rw [if_pos hq]

theorem parse_date_num_oob (q : ℚ) (hq : tsInBounds q = false) :
    parse_date (.num q) = Except.error "Out of bounds nanosecond timestamp" := by
  unfold parse_date
  rw [if_neg (parse_date_num_not_blank q)]
  show (if tsInBounds q = true then (Except.ok q : Except String ℚ)
      else Except.error "Out of bounds nanosecond timestamp") = _
  rw [if_neg (by simp [hq])]

theorem parse_date_date (t : ℚ) : parse_date (.date t) = Except.ok t := by
  unfold parse_date
  rw [if_neg]
  rintro (h | h)
  · simp [pdIsna] at h
  · refine pyStrip_ne_empty (c := 'T') ?_ (by decide) h
    show _ ∈ (pyStr (.date t)).toList
    unfold pyStr
    rw [toList_append, toList_append, toList_append, toList_append]
    exact List.mem_append_left _ (List.mem_append_left _
      (List.mem_append_left _ (List.mem_append_left _ (by decide))))

/-! ### The text parser on rendered day-first dates -/

theorem daysInMonth_le (y m : Int) : daysInMonth y m ≤ 31 := by
  unfold daysInMonth
  split
  · omega
  · split
    · omega
    · split <;> omega

theorem validCivil_day_lt {y m d : Int} (h : validCivil y m d = true) :
    1 ≤ m ∧ m ≤ 12 ∧ 1 ≤ d ∧ d ≤ 31 := by
  unfold validCivil at h
  simp only [Bool.and_eq_true, decide_eq_true_eq] at h
  have := daysInMonth_le y m
  omega

/-- The pivoted year is never zero: two-digit years land in 1900–2068 and
larger ones are kept. -/
theorem adjustYear_pos (y : Nat) : 1 ≤ adjustYear y := by
  unfold adjustYear
  split
  · split <;> omega
  · omega

theorem parseTextDate_render (d m y : Nat) (hd : d < 100)
    (hy9 : adjustYear y ≤ 9999)
    (hv : validCivil (adjustYear y) m d = true) :
    parseTextDate (renderNat d ++ '-' :: (renderNat m ++ '-' :: renderNat y)) =
      some ((excelSerial (adjustYear y) m d : Int) : ℚ) := by
  unfold parseTextDate
  have hmapd : (renderNat d).map normSep = renderNat d :=
    (List.map_congr_left fun c hc => (renderNat_mem_props d c hc).2.1).trans
      (List.map_id _)
  have hmapm : (renderNat m).map normSep = renderNat m :=
    (List.map_congr_left fun c hc => (renderNat_mem_props m c hc).2.1).trans
      (List.map_id _)
  have hmapy : (renderNat y).map normSep = renderNat y :=
    (List.map_congr_left fun c hc => (renderNat_mem_props y c hc).2.1).trans
      (List.map_id _)
  have hmap : (renderNat d ++ '-' :: (renderNat m ++ '-' :: renderNat y)).map normSep =
      renderNat d ++ '-' :: (renderNat m ++ '-' :: renderNat y) := by
    simp only [List.map_append, List.map_cons, hmapd, hmapm, hmapy]
    rfl
  rw [hmap, splitDash_three (fun x hx => (renderNat_mem_props d x hx).2.2.2)
    (fun x hx => (renderNat_mem_props m x hx).2.2.2)
    (fun x hx => (renderNat_mem_props y x hx).2.2.2)]
  simp only [parseNatDigits_renderNat]
  have h3 : ¬ 3 ≤ (renderNat d).length := by
    have := renderNat_length_le d hd
    omega
  simp only [if_neg h3]
  rw [if_pos hv,
    if_pos ⟨by exact_mod_cast adjustYear_pos y, by exact_mod_cast hy9⟩]

/-- Python-side empty test never fires on a rendered date string. -/
theorem renderDayFirst_not_blank (d m y : Nat) :
    ¬ pyStrip (renderDayFirst d m y) = "" := by
  refine pyStrip_ne_empty (c := '-') ?_ (by decide)
  show '-' ∈ (renderDayFirst d m y).toList
  unfold renderDayFirst
  show '-' ∈ renderNat d ++ '-' :: (renderNat m ++ '-' :: renderNat y)
  exact List.mem_append_right _ (List.mem_cons_self _ _)

theorem parse_date_renderDayFirst (d m y : Nat) (hd : d < 100)
    (hy9 : adjustYear y ≤ 9999)
    (hv : validCivil (adjustYear y) m d = true) :
    parse_date (.str (renderDayFirst d m y)) =
      Except.ok ((excelSerial (adjustYear y) m d : Int) : ℚ) := by
  unfold parse_date
  rw [if_neg]
  · show (match parseTextDate (stripChars (renderDayFirst d m y).toList) with
      | some t => Except.ok t
      | Option.none => Except.error _) = _
    have htl : (renderDayFirst d m y).toList =
        renderNat d ++ '-' :: (renderNat m ++ '-' :: renderNat y) := rfl
    rw [htl, stripChars_eq_self, parseTextDate_render d m y hd hy9 hv]
    intro c hc
    rcases List.mem_append.mp hc with hc | hc
    · exact (renderNat_mem_props d c hc).2.2.1
    rcases List.mem_cons.mp hc with hc | hc
    · subst hc; decide
    rcases List.mem_append.mp hc with hc | hc
    · exact (renderNat_mem_props m c hc).2.2.1
    rcases List.mem_cons.mp hc with hc | hc
    · subst hc; decide
    · exact (renderNat_mem_props y c hc).2.2.1
  · rintro (h | h)
    · simp [pdIsna] at h
    · exact renderDayFirst_not_blank d m y h

theorem adjustYear_of_ge (y : Nat) (h : 100 ≤ y) : adjustYear y = y := by
  unfold adjustYear
  rw [if_neg (by omega)]

/-- **C7 counterexample.** The serial day count of 2263-01-01 lies beyond
the representable `pd.Timestamp` range, so the numeric branch rejects it
with the out-of-bounds error — yet the day-first text rendering
"1-1-2263" of the very same calendar day still normalizes (through the
`dateutil` fallback): the normalizer is not the identity on every numeric
input, and the text and serial shapes disagree on that day. -/
theorem serial_shape_not_total :
    tsInBounds ((excelSerial 2263 1 1 : Int) : ℚ) = false ∧
    parse_date (.num ((excelSerial 2263 1 1 : Int) : ℚ)) =
      Except.error "Out of bounds nanosecond timestamp" ∧
    parse_date (.str "1-1-2263") = Except.ok ((excelSerial 2263 1 1 : Int) : ℚ) ∧
    ¬ (∀ q : ℚ, parse_date (.num q) = Except.ok q) := by
  have hb : tsInBounds ((excelSerial 2263 1 1 : Int) : ℚ) = false := by decide
  refine ⟨hb, parse_date_num_oob _ hb, by decide, fun hall => ?_⟩
  have h := hall ((excelSerial 2263 1 1 : Int) : ℚ)
  rw [parse_date_num_oob _ hb] at h
  exact Except.noConfusion h

/-- **C7 (amended).** The Date Normalizer sends a numeric input `q` to
the time `q` days after the 1899-12-30 anchor exactly when that instant
is inside the representable `pd.Timestamp` range — outside it the serial
shape is rejected with the out-of-bounds error — and the three input
shapes agree on every civil date whose year has four digits (100..9999)
and whose serial is representable: the day-first text rendering, the
serial day count since 1899-12-30, and an already-structured date value
all normalize to the same day count.  The witness instantiates this at
2024-02-01, whose serial is 45323. -/
theorem date_normalizer_agreement_in_range (y m d : Nat) (hy : 100 ≤ y)
    (hy9 : y ≤ 9999)
    (hv : validCivil (y : Int) (m : Int) (d : Int) = true)
    (hb : tsInBounds ((excelSerial y m d : Int) : ℚ) = true) :
    (∀ q : ℚ, tsInBounds q = true → parse_date (.num q) = Except.ok q) ∧
    (∀ q : ℚ, tsInBounds q = false →
      parse_date (.num q) = Except.error "Out of bounds nanosecond timestamp") ∧
    parse_date (.num ((excelSerial y m d : Int) : ℚ)) =
      Except.ok ((excelSerial y m d : Int) : ℚ) ∧
    parse_date (.date ((excelSerial y m d : Int) : ℚ)) =
      Except.ok ((excelSerial y m d : Int) : ℚ) ∧
    parse_date (.str (renderDayFirst d m y)) =
      Except.ok ((excelSerial y m d : Int) : ℚ) := by
  have hdd := validCivil_day_lt hv
  have hd : d < 100 := by omega
  have hadj : adjustYear y = y := adjustYear_of_ge y hy
  refine ⟨parse_date_num, parse_date_num_oob, parse_date_num _ hb,
    parse_date_date _, ?_⟩
  have h := parse_date_renderDayFirst d m y hd (by rw [hadj]; exact hy9)
    (by rw [hadj]; exact hv)
  rw [hadj] at h
  exact h

/-- **C7 (amended) witness** at 2024-02-01 (serial 45323, inside the
representable range) and the spec's 31/01/2024 example. -/
theorem date_normalizer_agreement_in_range_witness :
    excelSerial 2024 2 1 = 45323 ∧
    parse_date (.num 45323) = Except.ok 45323 ∧
    parse_date (.date 45323) = Except.ok 45323 ∧
    parse_date (.str "1-2-2024") = Except.ok 45323 ∧
    parse_date (.str "31/01/2024") = Except.ok 45322 ∧
    excelSerial 2024 1 31 = 45322 := by
  have h := date_normalizer_agreement_in_range 2024 2 1 (by omega) (by omega)
    (by decide) (by decide)
  obtain ⟨-, -, h2, h3, h4⟩ := h
  have hser : ((excelSerial ((2024 : Nat) : Int) ((2 : Nat) : Int) ((1 : Nat) : Int) : Int) : ℚ) =
      (45323 : ℚ) := by decide
  rw [hser] at h2 h3 h4
  have hren : renderDayFirst 1 2 2024 = "1-2-2024" := by decide
  rw [hren] at h4
  exact ⟨by decide, h2, h3, h4, by decide, by decide⟩

/-- **C9 counterexample.** The free-text input "15-03-99" has a parsed
two-digit year below 100 (99), yet it normalizes to the serial of
1999-03-15, a day strictly before 2000-01-01 — the year is not projected
into the 2000s. -/
theorem two_digit_year_not_always_2000s :
    parse_date (.str "15-03-99") = Except.ok ((excelSerial 1999 3 15 : Int) : ℚ) ∧
    excelSerial 1999 3 15 = 36234 ∧
    excelSerial 1999 3 15 < excelSerial 2000 1 1 := by
  exact ⟨by decide, by decide, by decide⟩

/-- **C9 (amended).** A parsed two-digit year is projected through the
parser's century pivot: years 00–68 into the 2000s and years 69–99 into
the 1900s; in particular "15-03-24" (rendered day-first) yields year
2024. -/
theorem two_digit_year_pivot (d m y : Nat) (hy : y < 100)
    (hv : validCivil ((adjustYear y : Nat) : Int) (m : Int) (d : Int) = true) :
    parse_date (.str (renderDayFirst d m y)) =
      Except.ok ((excelSerial (adjustYear y) m d : Int) : ℚ) ∧
    adjustYear y = (if y ≤ 68 then 2000 + y else 1900 + y) := by
  have hdd := validCivil_day_lt hv
  have hd : d < 100 := by omega
  have hy9 : adjustYear y ≤ 9999 := by
    unfold adjustYear
    rw [if_pos hy]
    split <;> omega
  refine ⟨parse_date_renderDayFirst d m y hd hy9 hv, ?_⟩
  unfold adjustYear
  rw [if_pos hy]

/-- **C9 (amended) witness** at day 15, month 3, two-digit year 24,
together with the spec's zero-padded spelling "15-03-24". -/
theorem two_digit_year_pivot_witness :
    parse_date (.str "15-3-24") = Except.ok ((excelSerial 2024 3 15 : Int) : ℚ) ∧
    parse_date (.str "15-03-24") = Except.ok ((excelSerial 2024 3 15 : Int) : ℚ) ∧
    excelSerial 2024 3 15 = 45366 := by
  have h := two_digit_year_pivot 15 3 24 (by omega) (by decide)
  have hren : renderDayFirst 15 3 24 = "15-3-24" := by decide
  have hadj : adjustYear 24 = 2024 := by decide
  rw [hren, hadj] at h
  exact ⟨h.1, by decide, by decide⟩

/-! ### Shapes of the nine field checks: each can only contribute an
entry under its own fixed key -/

theorem checkEmployeeId_shape (hs : List (String × Nat)) (ws : Ws) (r : Nat) :
    checkEmployeeId hs ws r = Option.none ∨
    ∃ msg, checkEmployeeId hs ws r = some ("Employee Id", msg) := by
  unfold checkEmployeeId
  repeat' (first | split | dsimp only)
  all_goals first | exact Or.inl rfl | exact Or.inr ⟨_, rfl⟩

theorem checkOptionsGranted_shape (hs : List (String × Nat)) (ws : Ws) (r : Nat) :
    checkOptionsGranted hs ws r = Option.none ∨
    ∃ msg, checkOptionsGranted hs ws r = some ("Options Granted", msg) := by
  unfold checkOptionsGranted
  repeat' (first | split | dsimp only)
  all_goals first | exact Or.inl rfl | exact Or.inr ⟨_, rfl⟩

theorem checkPlanName_shape (hs : List (String × Nat)) (p : List String)
    (ws : Ws) (r : Nat) :
    checkPlanName hs p ws r = Option.none ∨
    ∃ msg, checkPlanName hs p ws r = some ("Plan Name", msg) := by
  unfold checkPlanName
  repeat' (first | split | dsimp only)
  all_goals first | exact Or.inl rfl | exact Or.inr ⟨_, rfl⟩

theorem checkGrantDate_shape (hs : List (String × Nat)) (ws : Ws) (r : Nat) :
    (checkGrantDate hs ws r).2 = Option.none ∨
    ∃ msg, (checkGrantDate hs ws r).2 = some ("Date Of Grant", msg) := by
  unfold checkGrantDate
  repeat' (first | split | dsimp only)
  all_goals first | exact Or.inl rfl | exact Or.inr ⟨_, rfl⟩

theorem checkGrantPrice_shape (hs : List (String × Nat)) (ws : Ws) (r : Nat) :
    checkGrantPrice hs ws r = Option.none ∨
    ∃ msg, checkGrantPrice hs ws r = some ("Grant Price", msg) := by
  unfold checkGrantPrice
  repeat' (first | split | dsimp only)
  all_goals first | exact Or.inl rfl | exact Or.inr ⟨_, rfl⟩

theorem checkVestingTemplate_shape (hs : List (String × Nat)) (t : List String)
    (ws : Ws) (r : Nat) :
    checkVestingTemplate hs t ws r = Option.none ∨
    ∃ msg, checkVestingTemplate hs t ws r = some ("Vesting Template", msg) := by
  unfold checkVestingTemplate
  repeat' (first | split | dsimp only)
  all_goals first | exact Or.inl rfl | exact Or.inr ⟨_, rfl⟩

theorem checkVestingDateType_shape (hs : List (String × Nat)) (ws : Ws) (r : Nat) :
    (checkVestingDateType hs ws r).2 = Option.none ∨
    ∃ msg, (checkVestingDateType hs ws r).2 = some ("Vesting Date Type", msg) := by
  unfold checkVestingDateType
  repeat' (first | split | dsimp only)
  all_goals first | exact Or.inl rfl | exact Or.inr ⟨_, rfl⟩

theorem checkVestingDate_shape (vt : Option String) (hs : List (String × Nat))
    (ws : Ws) (r : Nat) :
    (checkVestingDate vt hs ws r).2 = Option.none ∨
    ∃ msg, (checkVestingDate vt hs ws r).2 = some ("Vesting Date", msg) := by
  unfold checkVestingDate
  repeat' (first | split | dsimp only)
  all_goals first | exact Or.inl rfl | exact Or.inr ⟨_, rfl⟩

theorem checkActualVestingDay_shape (hs : List (String × Nat)) (ws : Ws) (r : Nat) :
    checkActualVestingDay hs ws r = Option.none ∨
    ∃ msg, checkActualVestingDay hs ws r = some ("Actual Vesting Day", msg) := by
  unfold checkActualVestingDay
  repeat' (first | split | dsimp only)
  all_goals first | exact Or.inl rfl | exact Or.inr ⟨_, rfl⟩

theorem key_clash {k1 k2 m1 m2 : String} (hne : ¬ k1 = k2)
    (h : (some (k1, m1) : Option (String × String)) = some (k2, m2)) : False := by
  injection h with h
  exact hne (congrArg Prod.fst h)

/-- An entry under the key "Vesting Date" appears in a row's error set
exactly when the vesting-date check produced it. -/
theorem processRow_mem_vesting (hs : List (String × Nat)) (p t : List String)
    (ws : Ws) (r : Nat) (msg : String) :
    ("Vesting Date", msg) ∈ (processRow hs p t ws r).2 ↔
      (checkVestingDate (checkVestingDateType hs (checkGrantDate hs ws r).1 r).1 hs
        (checkGrantDate hs ws r).1 r).2 = some ("Vesting Date", msg) := by
  unfold processRow
  rw [List.mem_filterMap]
  constructor
  · rintro ⟨a, ha, hid⟩
    rw [show id a = a from rfl] at hid
    subst hid
    simp only [List.mem_cons, List.not_mem_nil, or_false] at ha
    rcases ha with h | h | h | h | h | h | h | h | h
    · rcases checkEmployeeId_shape hs ws r with hsh | ⟨m, hsh⟩ <;> rw [hsh] at h
      · exact Option.noConfusion h
      · exact (key_clash (by decide) h).elim
    · rcases checkOptionsGranted_shape hs ws r with hsh | ⟨m, hsh⟩ <;> rw [hsh] at h
      · exact Option.noConfusion h
      · exact (key_clash (by decide) h).elim
    · rcases checkPlanName_shape hs p ws r with hsh | ⟨m, hsh⟩ <;> rw [hsh] at h
      · exact Option.noConfusion h
      · exact (key_clash (by decide) h).elim
    · rcases checkGrantDate_shape hs ws r with hsh | ⟨m, hsh⟩ <;> rw [hsh] at h
      · exact Option.noConfusion h
      · exact (key_clash (by decide) h).elim
    · rcases checkGrantPrice_shape hs (checkGrantDate hs ws r).1 r with hsh | ⟨m, hsh⟩ <;>
        rw [hsh] at h
      · exact Option.noConfusion h
      · exact (key_clash (by decide) h).elim
    · rcases checkVestingTemplate_shape hs t (checkGrantDate hs ws r).1 r with hsh | ⟨m, hsh⟩ <;>
        rw [hsh] at h
      · exact Option.noConfusion h
      · exact (key_clash (by decide) h).elim
    · rcases checkVestingDateType_shape hs (checkGrantDate hs ws r).1 r with hsh | ⟨m, hsh⟩ <;>
        rw [hsh] at h
      · exact Option.noConfusion h
      · exact (key_clash (by decide) h).elim
    · exact h.symm
    · rcases checkActualVestingDay_shape hs
        (checkVestingDate (checkVestingDateType hs (checkGrantDate hs ws r).1 r).1 hs
          (checkGrantDate hs ws r).1 r).1 r with hsh | ⟨m, hsh⟩ <;> rw [hsh] at h
      · exact Option.noConfusion h
      · exact (key_clash (by decide) h).elim
  · intro h
    refine ⟨some ("Vesting Date", msg), ?_, rfl⟩
    simp only [List.mem_cons]
    exact Or.inr (Or.inr (Or.inr (Or.inr (Or.inr (Or.inr (Or.inr (Or.inl h.symm)))))))

/-- **C1 counterexample.** The single data row of `fxWsBadVest` carries
vesting-date type "GrantDate" and the supplied vesting date "not a date",
which fails the Date Normalizer; yet the run reports no row error at all
and commits — a supplied vesting-date value is not validated when the
type differs from "CustomDate". -/
theorem vesting_date_not_validated_when_not_custom :
    (validate_and_format_dates_inplace fxWsBadVest "acme" fxDbAcme).success = true ∧
    (validate_and_format_dates_inplace fxWsBadVest "acme" fxDbAcme).report =
      ⟨"Valid", [], []⟩ ∧
    (fxWsBadVest.cell 2 7).value = PyVal.str "GrantDate" ∧
    parse_date ((fxWsBadVest.cell 2 8).value) =
      Except.error "Invalid date format: not a date" :=
  ⟨by decide, by decide, by decide, by decide⟩

/-- **C1 (amended).** For every data row, the Vesting Date cell is
examined only when the row's vesting-date type equals "CustomDate": then
an absent cell, or a non-datetime cell failing the Date Normalizer, adds
the entry "Vesting Date" -> "Invalid/Empty Date.", while a datetime or a
normalizable cell adds no such entry; when the type is anything else the
cell is ignored entirely, so neither absence nor an invalid supplied
value produces a "Vesting Date" error. -/
theorem vesting_date_conditional (hs : List (String × Nat)) (p t : List String)
    (ws : Ws) (r : Nat) :
    ((checkVestingDateType hs (checkGrantDate hs ws r).1 r).1 ≠ some "CustomDate" →
      ∀ msg, ("Vesting Date", msg) ∉ (processRow hs p t ws r).2) ∧
    (∀ col, (checkVestingDateType hs (checkGrantDate hs ws r).1 r).1 = some "CustomDate" →
      lookupHeader hs "Vesting Date" = some col →
      (((((checkGrantDate hs ws r).1.cell r col).value = PyVal.none ∨
        (isDatetime (((checkGrantDate hs ws r).1.cell r col).value) = false ∧
         ∃ e, parse_date (((checkGrantDate hs ws r).1.cell r col).value) = Except.error e)) →
        ("Vesting Date", "Invalid/Empty Date.") ∈ (processRow hs p t ws r).2) ∧
      ((isDatetime (((checkGrantDate hs ws r).1.cell r col).value) = true ∨
        (∃ tv, parse_date (((checkGrantDate hs ws r).1.cell r col).value) = Except.ok tv)) →
        ∀ msg, ("Vesting Date", msg) ∉ (processRow hs p t ws r).2))) := by
  refine ⟨?_, ?_⟩
  · intro hne msg hmem
    rw [processRow_mem_vesting] at hmem
    unfold checkVestingDate at hmem
    rw [if_neg hne] at hmem
    exact Option.noConfusion hmem
  · intro col hcd hcol
    constructor
    · intro hfail
      rw [processRow_mem_vesting]
      unfold checkVestingDate
      rw [if_pos hcd, hcol]
      dsimp only
      rcases hfail with hnone | ⟨hnd, e, herr⟩
      · rw [if_pos hnone]
      · by_cases hv0 : (((checkGrantDate hs ws r).1).cell r col).value = PyVal.none
        · rw [if_pos hv0]
        · rw [if_neg hv0, hnd]
          rw [if_neg (by decide), herr]
    · intro hok msg hmem
      rw [processRow_mem_vesting] at hmem
      unfold checkVestingDate at hmem
      rw [if_pos hcd, hcol] at hmem
      dsimp only at hmem
      by_cases hv0 : (((checkGrantDate hs ws r).1).cell r col).value = PyVal.none
      · rcases hok with h | ⟨tv, h⟩ <;> rw [hv0] at h
        · exact absurd h (by decide)
        · rw [show parse_date PyVal.none = Except.error "Date is empty" from rfl] at h
          exact Except.noConfusion h
      · rw [if_neg hv0] at hmem
        by_cases hdt : isDatetime ((((checkGrantDate hs ws r).1).cell r col).value) = true
        · rw [if_pos hdt] at hmem
          exact Option.noConfusion hmem
        · rw [if_neg hdt] at hmem
          rcases hok with h | ⟨tv, h⟩
          · exact absurd h hdt
          · rw [h] at hmem
            exact Option.noConfusion hmem

/-- **C1 (amended) witness**: an empty vesting date under `CustomDate`
produces the error entry, and an invalid supplied vesting date under
`GrantDate` produces none. -/
theorem vesting_date_conditional_witness :
    ("Vesting Date", "Invalid/Empty Date.") ∈
      (processRow (buildHeaders fxWsCustomEmpty) ["ESOP-A"] ["T1"] fxWsCustomEmpty 2).2 ∧
    (∀ msg, ("Vesting Date", msg) ∉
      (processRow (buildHeaders fxWsBadVest) ["ESOP-A"] ["T1"] fxWsBadVest 2).2) := by
  constructor
  · exact (((vesting_date_conditional (buildHeaders fxWsCustomEmpty) ["ESOP-A"] ["T1"]
      fxWsCustomEmpty 2).2 8 (by decide) (by decide)).1) (Or.inl (by decide))
  · exact fun msg => (vesting_date_conditional (buildHeaders fxWsBadVest) ["ESOP-A"] ["T1"]
      fxWsBadVest 2).1 (by decide) msg

/-! ### Worksheet read/write lemmas -/

theorem getInRow_setInRow (c : Nat) :
    ∀ (row : List Cell) (c' : Nat) (x : Cell),
      getInRow (setInRow row c x) c' = getInRow row c' ∨
      (c' = c ∧ getInRow (setInRow row c x) c' = x) := by
  induction c with
  | zero => intro row c' x; left; cases row <;> rfl
  | succ n ih =>
    intro row c' x
    cases n with
    | zero =>
      cases row with
      | nil =>
        match c' with
        | 0 => left; rfl
        | 1 => right; exact ⟨rfl, rfl⟩
        | Nat.succ (Nat.succ m) => left; show getInRow [] (m + 1) = emptyCell; cases m <;> rfl
      | cons y rest =>
        match c' with
        | 0 => left; rfl
        | 1 => right; exact ⟨rfl, rfl⟩
        | Nat.succ (Nat.succ m) => left; rfl
    | succ k =>
      cases row with
      | nil =>
        match c' with
        | 0 => left; rfl
        | 1 => left; rfl
        | Nat.succ (Nat.succ m) =>
          show getInRow (setInRow [] (k + 1) x) (m + 1) = getInRow [] (m + 2) ∨
            (m + 2 = k + 2 ∧ getInRow (setInRow [] (k + 1) x) (m + 1) = x)
          rcases ih [] (m + 1) x with h | ⟨hc, h⟩
          · left
            rw [h]
            show getInRow [] (m + 1) = getInRow [] (m + 2)
            cases m <;> rfl
          · right
            exact ⟨by omega, h⟩
      | cons y rest =>
        match c' with
        | 0 => left; rfl
        | 1 => left; rfl
        | Nat.succ (Nat.succ m) =>
          show getInRow (setInRow rest (k + 1) x) (m + 1) = getInRow rest (m + 1) ∨
            (m + 2 = k + 2 ∧ getInRow (setInRow rest (k + 1) x) (m + 1) = x)
          rcases ih rest (m + 1) x with h | ⟨hc, h⟩
          · left; exact h
          · right; exact ⟨by omega, h⟩

theorem getRow_setInRows (r : Nat) :
    ∀ (rows : List (List Cell)) (c r' : Nat) (x : Cell),
      getRow (setInRows rows r c x) r' = getRow rows r' ∨
      (r' = r ∧ getRow (setInRows rows r c x) r' = setInRow (getRow rows r) c x) := by
  induction r with
  | zero => intro rows c r' x; left; cases rows <;> rfl
  | succ n ih =>
    intro rows c r' x
    cases n with
    | zero =>
      cases rows with
      | nil =>
        match r' with
        | 0 => left; rfl
        | 1 => right; exact ⟨rfl, rfl⟩
        | Nat.succ (Nat.succ m) => left; show getRow [] (m + 1) = getRow [] (m + 2); cases m <;> rfl
      | cons y rest =>
        match r' with
        | 0 => left; rfl
        | 1 => right; exact ⟨rfl, rfl⟩
        | Nat.succ (Nat.succ m) => left; rfl
    | succ k =>
      cases rows with
      | nil =>
        match r' with
        | 0 => left; rfl
        | 1 => left; rfl
        | Nat.succ (Nat.succ m) =>
          show getRow (setInRows [] (k + 1) c x) (m + 1) = getRow [] (m + 2) ∨
            (m + 2 = k + 2 ∧ getRow (setInRows [] (k + 1) c x) (m + 1) = setInRow (getRow [] (k + 2)) c x)
          rcases ih [] c (m + 1) x with h | ⟨hr, h⟩
          · left
            rw [h]
            show getRow [] (m + 1) = getRow [] (m + 2)
            cases m <;> rfl
          · right
            refine ⟨by omega, ?_⟩
            rw [h]
            show setInRow (getRow [] (k + 1)) c x = setInRow (getRow [] (k + 2)) c x
            cases k <;> rfl
      | cons y rest =>
        match r' with
        | 0 => left; rfl
        | 1 => left; rfl
        | Nat.succ (Nat.succ m) =>
          show getRow (setInRows rest (k + 1) c x) (m + 1) = getRow rest (m + 1) ∨
            (m + 2 = k + 2 ∧ getRow (setInRows rest (k + 1) c x) (m + 1) = setInRow (getRow rest (k + 1)) c x)
          rcases ih rest c (m + 1) x with h | ⟨hr, h⟩
          · left; exact h
          · right
            exact ⟨by omega, h⟩

/-- Any single cell write either leaves a cell unchanged or, at the
target address, installs the written cell. -/
theorem cell_set_cases (ws : Ws) (r c r' c' : Nat) (x : Cell) :
    (ws.set r c x).cell r' c' = ws.cell r' c' ∨
    (r' = r ∧ c' = c ∧ (ws.set r c x).cell r' c' = x) := by
  show getInRow (getRow (setInRows ws.rows r c x) r') c' = getInRow (getRow ws.rows r') c' ∨
    (r' = r ∧ c' = c ∧ getInRow (getRow (setInRows ws.rows r c x) r') c' = x)
  rcases getRow_setInRows r ws.rows c r' x with h | ⟨hr, h⟩
  · left; rw [h]
  · rw [h]
    rcases getInRow_setInRow c (getRow ws.rows r) c' x with h2 | ⟨hc, h2⟩
    · left
      rw [h2, hr]
    · right
      exact ⟨hr, hc, h2⟩

/-! ### Which cell values a row's processing can change -/

theorem checkGrantDate_cell (hs : List (String × Nat)) (ws : Ws) (r r' c' : Nat) :
    ((checkGrantDate hs ws r).1.cell r' c').value = (ws.cell r' c').value ∨
    (r' = r ∧ lookupHeader hs "Date Of Grant" = some c' ∧
      ∃ tv, parse_date ((ws.cell r' c').value) = Except.ok tv ∧
        ((checkGrantDate hs ws r).1.cell r' c').value = PyVal.date tv) := by
  unfold checkGrantDate
  cases hcol : lookupHeader hs "Date Of Grant" with
  | none => left; rfl
  | some col =>
    dsimp only
    by_cases h0 : (ws.cell r col).value = PyVal.none
    · rw [if_pos h0]; left; rfl
    · rw [if_neg h0]
      by_cases hdt : isDatetime (ws.cell r col).value = true
      · rw [if_pos hdt]
        rcases cell_set_cases ws r col r' c'
            { ws.cell r col with numberFormat := GRANT_DATE_FORMAT } with h | ⟨hr, hc, h⟩
        · left; rw [h]
        · left
          rw [h]
          subst hr
          subst hc
          rfl
      · rw [if_neg hdt]
        cases hpd : parse_date (ws.cell r col).value with
        | error e => left; rfl
        | ok tv =>
          show ((ws.set r col ⟨PyVal.date tv, GRANT_DATE_FORMAT⟩).cell r' c').value =
              (ws.cell r' c').value ∨
            (r' = r ∧ some col = some c' ∧
              ∃ t2, parse_date ((ws.cell r' c').value) = Except.ok t2 ∧
                ((ws.set r col ⟨PyVal.date tv, GRANT_DATE_FORMAT⟩).cell r' c').value =
                  PyVal.date t2)
          rcases cell_set_cases ws r col r' c' ⟨PyVal.date tv, GRANT_DATE_FORMAT⟩ with
            h | ⟨hr, hc, h⟩
          · left; rw [h]
          · right
            subst hr
            subst hc
            exact ⟨rfl, rfl, tv, hpd, by rw [h]⟩

theorem checkVestingDate_cell (vt : Option String) (hs : List (String × Nat))
    (ws : Ws) (r r' c' : Nat) :
    ((checkVestingDate vt hs ws r).1.cell r' c').value = (ws.cell r' c').value ∨
    (r' = r ∧ lookupHeader hs "Vesting Date" = some c' ∧
      ∃ tv, parse_date ((ws.cell r' c').value) = Except.ok tv ∧
        ((checkVestingDate vt hs ws r).1.cell r' c').value = PyVal.date tv) := by
  unfold checkVestingDate
  by_cases hvt : vt = some "CustomDate"
  case neg => rw [if_neg hvt]; left; rfl
  rw [if_pos hvt]
  cases hcol : lookupHeader hs "Vesting Date" with
  | none => left; rfl
  | some col =>
    dsimp only
    by_cases h0 : (ws.cell r col).value = PyVal.none
    · rw [if_pos h0]; left; rfl
    · rw [if_neg h0]
      by_cases hdt : isDatetime (ws.cell r col).value = true
      · rw [if_pos hdt]
        rcases cell_set_cases ws r col r' c'
            { ws.cell r col with numberFormat := VESTING_DATE_FORMAT } with h | ⟨hr, hc, h⟩
        · left; rw [h]
        · left
          rw [h]
          subst hr
          subst hc
          rfl
      · rw [if_neg hdt]
        cases hpd : parse_date (ws.cell r col).value with
        | error e => left; rfl
        | ok tv =>
          show ((ws.set r col ⟨PyVal.date tv, VESTING_DATE_FORMAT⟩).cell r' c').value =
              (ws.cell r' c').value ∨
            (r' = r ∧ some col = some c' ∧
              ∃ t2, parse_date ((ws.cell r' c').value) = Except.ok t2 ∧
                ((ws.set r col ⟨PyVal.date tv, VESTING_DATE_FORMAT⟩).cell r' c').value =
                  PyVal.date t2)
          rcases cell_set_cases ws r col r' c' ⟨PyVal.date tv, VESTING_DATE_FORMAT⟩ with
            h | ⟨hr, hc, h⟩
          · left; rw [h]
          · right
            subst hr
            subst hc
            exact ⟨rfl, rfl, tv, hpd, by rw [h]⟩

theorem processRow_cell (hs : List (String × Nat)) (p t : List String)
    (ws : Ws) (r r' c' : Nat) :
    ((processRow hs p t ws r).1.cell r' c').value = (ws.cell r' c').value ∨
    (r' = r ∧
      (lookupHeader hs "Date Of Grant" = some c' ∨
       lookupHeader hs "Vesting Date" = some c') ∧
      ∃ tv, parse_date ((ws.cell r' c').value) = Except.ok tv ∧
        ((processRow hs p t ws r).1.cell r' c').value = PyVal.date tv) := by
  have hPR : (processRow hs p t ws r).1 =
      (checkVestingDate (checkVestingDateType hs (checkGrantDate hs ws r).1 r).1 hs
        (checkGrantDate hs ws r).1 r).1 := rfl
  rw [hPR]
  rcases checkVestingDate_cell (checkVestingDateType hs (checkGrantDate hs ws r).1 r).1 hs
      (checkGrantDate hs ws r).1 r r' c' with hv | ⟨hr, hcol, tv, hp, hfin⟩
  · rw [hv]
    rcases checkGrantDate_cell hs ws r r' c' with hg | ⟨hr, hc, tg, hpg, hfing⟩
    · left; exact hg
    · right; exact ⟨hr, Or.inl hc, tg, hpg, hfing⟩
  · rcases checkGrantDate_cell hs ws r r' c' with hg | ⟨hr2, hcol2, tg, hpg, hfing⟩
    · right
      refine ⟨hr, Or.inr hcol, tv, ?_, hfin⟩
      rw [← hg]
      exact hp
    · right
      have htv : tv = tg := by
        rw [hfing, parse_date_date] at hp
        injection hp with hp
        exact hp.symm
      refine ⟨hr, Or.inl hcol2, tg, hpg, ?_⟩
      rw [hfin, htv]

theorem scanRows_cell (hs : List (String × Nat)) (p t : List String) :
    ∀ (rl : List Nat) (ws : Ws) (r' c' : Nat),
      ((scanRows hs p t ws rl).1.cell r' c').value = (ws.cell r' c').value ∨
      (r' ∈ rl ∧
        (lookupHeader hs "Date Of Grant" = some c' ∨
         lookupHeader hs "Vesting Date" = some c') ∧
        ∃ tv, parse_date ((ws.cell r' c').value) = Except.ok tv ∧
          ((scanRows hs p t ws rl).1.cell r' c').value = PyVal.date tv) := by
  intro rl
  induction rl with
  | nil => intro ws r' c'; left; rfl
  | cons r rest ih =>
    intro ws r' c'
    have hfst : (scanRows hs p t ws (r :: rest)).1 =
        (scanRows hs p t (processRow hs p t ws r).1 rest).1 := rfl
    rw [hfst]
    rcases ih (processRow hs p t ws r).1 r' c' with h | ⟨hmem, hcol, tv, hp, hfin⟩
    · rw [h]
      rcases processRow_cell hs p t ws r r' c' with h2 | ⟨hr, hcol, tv, hp, hfin⟩
      · left; exact h2
      · right
        exact ⟨by rw [hr]; exact List.mem_cons_self r rest, hcol, tv, hp, hfin⟩
    · rcases processRow_cell hs p t ws r r' c' with h2 | ⟨hr, hcol2, tg, hpg, hfing⟩
      · right
        refine ⟨List.mem_cons_of_mem _ hmem, hcol, tv, ?_, hfin⟩
        rw [← h2]
        exact hp
      · right
        have htv : tv = tg := by
          rw [hfing, parse_date_date] at hp
          injection hp with hp
          exact hp.symm
        refine ⟨by rw [hr]; exact List.mem_cons_self r rest, hcol, tg, hpg, ?_⟩
        rw [hfin, htv]

/-- **C3.** The only cell values a run ever changes are "Date Of Grant"
and "Vesting Date" cells of data rows whose original value passes the
Date Normalizer (they then hold exactly the normalized date); every
other cell keeps its original value, and a rejected run never writes the
document back, so the persisted file equals the input unless the run
succeeded. -/
theorem only_date_cells_written (ws : Ws) (key : String)
    (db : List (String × CompanyEntry)) (r c : Nat) :
    ((((validate_and_format_dates_inplace ws key db).mem).cell r c).value =
        (ws.cell r c).value ∨
      (2 ≤ r ∧ r ≤ ws.maxRow ∧
        (lookupHeader (buildHeaders ws) "Date Of Grant" = some c ∨
         lookupHeader (buildHeaders ws) "Vesting Date" = some c) ∧
        ∃ tv, parse_date ((ws.cell r c).value) = Except.ok tv ∧
          (((validate_and_format_dates_inplace ws key db).mem).cell r c).value =
            PyVal.date tv)) ∧
    (validate_and_format_dates_inplace ws key db).disk =
      (if (validate_and_format_dates_inplace ws key db).success = true then
        (validate_and_format_dates_inplace ws key db).mem
      else ws) := by
  by_cases hh : missingHeaders ws = []
  · cases hr : resolveCompany db key with
    | none => rw [run_fatal hh hr]; exact ⟨Or.inl rfl, rfl⟩
    | some pt =>
      obtain ⟨p, t⟩ := pt
      have hmemcell :
          (((scanRows (buildHeaders ws) p t ws (rowIndices ws)).1.cell r c).value =
            (ws.cell r c).value) ∨
          (2 ≤ r ∧ r ≤ ws.maxRow ∧
            (lookupHeader (buildHeaders ws) "Date Of Grant" = some c ∨
             lookupHeader (buildHeaders ws) "Vesting Date" = some c) ∧
            ∃ tv, parse_date ((ws.cell r c).value) = Except.ok tv ∧
              ((scanRows (buildHeaders ws) p t ws (rowIndices ws)).1.cell r c).value =
                PyVal.date tv) := by
        rcases scanRows_cell (buildHeaders ws) p t (rowIndices ws) ws r c with
          h | ⟨hmem, hcol, tv, hp, hfin⟩
        · exact Or.inl h
        · rw [rowIndices, List.mem_range'_1] at hmem
          exact Or.inr ⟨by omega, by omega, hcol, tv, hp, hfin⟩
      by_cases hsc : (scanRows (buildHeaders ws) p t ws (rowIndices ws)).2 = []
      · rw [run_commit hh hr hsc]
        exact ⟨hmemcell, rfl⟩
      · rw [run_rowfail hh hr hsc]
        exact ⟨hmemcell, rfl⟩
  · rw [run_header_fail hh]
    exact ⟨Or.inl rfl, rfl⟩

/-! ### Definite read/write lemmas and structural bounds -/

theorem getInRow_default : ∀ (row : List Cell) (c : Nat),
    c = 0 ∨ row.length < c → getInRow row c = emptyCell := by
  intro row
  induction row with
  | nil =>
    intro c _
    match c with
    | 0 => rfl
    | Nat.succ n => rfl
  | cons y rest ih =>
    intro c hc
    match c, hc with
    | 0, _ => rfl
    | 1, h => simp at h
    | Nat.succ (Nat.succ m), h =>
      show getInRow rest (m + 1) = emptyCell
      refine ih (m + 1) (Or.inr ?_)
      simp at h
      omega

theorem getRow_default : ∀ (rows : List (List Cell)) (r : Nat),
    r = 0 ∨ rows.length < r → getRow rows r = [] := by
  intro rows
  induction rows with
  | nil =>
    intro r _
    match r with
    | 0 => rfl
    | Nat.succ n => rfl
  | cons y rest ih =>
    intro r hr
    match r, hr with
    | 0, _ => rfl
    | 1, h => simp at h
    | Nat.succ (Nat.succ m), h =>
      show getRow rest (m + 1) = []
      refine ih (m + 1) (Or.inr ?_)
      simp at h
      omega

/-- A cell whose value is not `None` lies within the stored rectangle. -/
theorem bounds_of_value_ne_none {ws : Ws} {r c : Nat}
    (h : (ws.cell r c).value ≠ PyVal.none) :
    1 ≤ r ∧ r ≤ ws.maxRow ∧ 1 ≤ c ∧ c ≤ (getRow ws.rows r).length := by
  by_cases hr : r = 0 ∨ ws.rows.length < r
  · exact absurd (by show (getInRow (getRow ws.rows r) c).value = _
                     rw [getRow_default ws.rows r hr]
                     cases c <;> rfl) h
  · push_neg at hr
    by_cases hc : c = 0 ∨ (getRow ws.rows r).length < c
    · refine absurd ?_ h
      show (getInRow (getRow ws.rows r) c).value = _
      rw [getInRow_default (getRow ws.rows r) c hc]
      rfl
    · push_neg at hc
      exact ⟨by omega, hr.2, by omega, hc.2⟩

theorem setInRow_get_id : ∀ (c : Nat) (row : List Cell),
    c ≤ row.length → setInRow row c (getInRow row c) = row := by
  intro c
  induction c with
  | zero => intro row _; cases row <;> rfl
  | succ n ih =>
    intro row hh
    cases n with
    | zero =>
      cases row with
      | nil => simp at hh
      | cons y rest => rfl
    | succ k =>
      cases row with
      | nil => simp at hh
      | cons y rest =>
        show y :: setInRow rest (k + 1) (getInRow rest (k + 1)) = y :: rest
        rw [ih rest (by simpa using hh)]

theorem setInRows_get_id : ∀ (r : Nat) (rows : List (List Cell)) (c : Nat),
    r ≤ rows.length → c ≤ (getRow rows r).length →
    setInRows rows r c (getInRow (getRow rows r) c) = rows := by
  intro r
  induction r with
  | zero => intro rows c _ _; cases rows <;> rfl
  | succ n ih =>
    intro rows c h1 h2
    cases n with
    | zero =>
      cases rows with
      | nil => simp at h1
      | cons y rest =>
        show setInRow y c (getInRow y c) :: rest = y :: rest
        rw [setInRow_get_id c y h2]
    | succ k =>
      cases rows with
      | nil => simp at h1
      | cons y rest =>
        show y :: setInRows rest (k + 1) c (getInRow (getRow rest (k + 1)) c) = y :: rest
        rw [ih rest c (by simpa using h1) h2]

/-- Writing back the cell just read is a no-op when the cell exists. -/
theorem set_cell_id (ws : Ws) (r c : Nat)
    (h1 : r ≤ ws.maxRow) (h2 : c ≤ (getRow ws.rows r).length) :
    ws.set r c (ws.cell r c) = ws := by
  show Ws.mk (setInRows ws.rows r c (getInRow (getRow ws.rows r) c)) = ws
  rw [setInRows_get_id r ws.rows c h1 h2]

theorem getInRow_setInRow_self : ∀ (c : Nat) (row : List Cell) (x : Cell),
    1 ≤ c → getInRow (setInRow row c x) c = x := by
  intro c
  induction c with
  | zero => intro row x h; omega
  | succ n ih =>
    intro row x _
    cases n with
    | zero => cases row <;> rfl
    | succ k =>
      cases row with
      | nil =>
        show getInRow (setInRow [] (k + 1) x) (k + 1) = x
        exact ih [] x (by omega)
      | cons y rest =>
        show getInRow (setInRow rest (k + 1) x) (k + 1) = x
        exact ih rest x (by omega)

theorem getRow_setInRows_self : ∀ (r : Nat) (rows : List (List Cell)) (c : Nat) (x : Cell),
    1 ≤ r → getRow (setInRows rows r c x) r = setInRow (getRow rows r) c x := by
  intro r
  induction r with
  | zero => intro rows c x h; omega
  | succ n ih =>
    intro rows c x _
    cases n with
    | zero => cases rows <;> rfl
    | succ k =>
      cases rows with
      | nil =>
        show getRow (setInRows [] (k + 1) c x) (k + 1) = setInRow (getRow [] (k + 2)) c x
        rw [ih [] c x (by omega)]
        show setInRow (getRow [] (k + 1)) c x = setInRow (getRow [] (k + 2)) c x
        cases k <;> rfl
      | cons y rest =>
        show getRow (setInRows rest (k + 1) c x) (k + 1) = setInRow (getRow rest (k + 1)) c x
        exact ih rest c x (by omega)

/-- The written cell is read back at the target address. -/
theorem cell_set_self (ws : Ws) (r c : Nat) (x : Cell)
    (h1 : 1 ≤ r) (h2 : 1 ≤ c) : (ws.set r c x).cell r c = x := by
  show getInRow (getRow (setInRows ws.rows r c x) r) c = x
  rw [getRow_setInRows_self r ws.rows c x h1, getInRow_setInRow_self c _ x h2]

theorem length_setInRow : ∀ (c : Nat) (row : List Cell) (x : Cell),
    (setInRow row c x).length = max row.length c := by
  intro c
  induction c with
  | zero => intro row x; cases row <;> simp [setInRow]
  | succ n ih =>
    intro row x
    cases n with
    | zero => cases row <;> simp [setInRow]
    | succ k =>
      cases row with
      | nil =>
        show (emptyCell :: setInRow [] (k + 1) x).length = max 0 (k + 2)
        simp [ih [] x]
      | cons y rest =>
        show (y :: setInRow rest (k + 1) x).length = max (rest.length + 1) (k + 2)
        simp [ih rest x]
        omega

theorem length_setInRows : ∀ (r : Nat) (rows : List (List Cell)) (c : Nat) (x : Cell),
    1 ≤ r → (setInRows rows r c x).length = max rows.length r := by
  intro r
  induction r with
  | zero => intro rows c x h; omega
  | succ n ih =>
    intro rows c x _
    cases n with
    | zero => cases rows <;> simp [setInRows]
    | succ k =>
      cases rows with
      | nil =>
        show ([] :: setInRows [] (k + 1) c x).length = max 0 (k + 2)
        simp [ih [] c x (by omega)]
      | cons y rest =>
        show (y :: setInRows rest (k + 1) c x).length = max (rest.length + 1) (k + 2)
        simp [ih rest c x (by omega)]
        omega

theorem maxRow_set (ws : Ws) (r c : Nat) (x : Cell)
    (h1 : 1 ≤ r) (h2 : r ≤ ws.maxRow) : (ws.set r c x).maxRow = ws.maxRow := by
  show (setInRows ws.rows r c x).length = ws.rows.length
  rw [length_setInRows r ws.rows c x h1]
  have : r ≤ ws.rows.length := h2
  omega

theorem listMax_setInRows : ∀ (r : Nat) (rows : List (List Cell)) (c : Nat) (x : Cell),
    1 ≤ r → r ≤ rows.length →
    ((setInRows rows r c x).map List.length).foldr max 0 =
      max ((rows.map List.length).foldr max 0) c := by
  intro r
  induction r with
  | zero => intro rows c x h _; omega
  | succ n ih =>
    intro rows c x _ hlen
    cases n with
    | zero =>
      cases rows with
      | nil => simp at hlen
      | cons y rest =>
        show (setInRow y c x).length ⊔ ((rest.map List.length).foldr max 0) =
          (y.length ⊔ ((rest.map List.length).foldr max 0)) ⊔ c
        rw [length_setInRow c y x]
        omega
    | succ k =>
      cases rows with
      | nil => simp at hlen
      | cons y rest =>
        show y.length ⊔ (((setInRows rest (k + 1) c x).map List.length).foldr max 0) =
          (y.length ⊔ ((rest.map List.length).foldr max 0)) ⊔ c
        rw [ih rest c x (by omega) (by simpa using hlen)]
        omega

theorem maxColumn_set (ws : Ws) (r c : Nat) (x : Cell)
    (h1 : 1 ≤ r) (h2 : r ≤ ws.maxRow) (h3 : c ≤ ws.maxColumn) :
    (ws.set r c x).maxColumn = ws.maxColumn := by
  show ((setInRows ws.rows r c x).map List.length).foldr max 0 = _
  rw [listMax_setInRows r ws.rows c x h1 h2]
  have : c ≤ (ws.rows.map List.length).foldr max 0 := h3
  show ((ws.rows.map List.length).foldr max 0) ⊔ c = (ws.rows.map List.length).foldr max 0
  omega

theorem getRow_set_ne (ws : Ws) (r c r' : Nat) (x : Cell) (h : r' ≠ r) :
    getRow (ws.set r c x).rows r' = getRow ws.rows r' := by
  rcases getRow_setInRows r ws.rows c r' x with h2 | ⟨hr, _⟩
  · exact h2
  · exact absurd hr h

/-! ### The header map: bounds, injectivity, stability -/

theorem mem_buildHeaders {ws : Ws} {q : String × Nat} (h : q ∈ buildHeaders ws) :
    q = (pyStrip (pyStr ((ws.cell 1 q.2).value)), q.2) ∧ 1 ≤ q.2 ∧ q.2 ≤ ws.maxColumn := by
  unfold buildHeaders at h
  rw [List.mem_filterMap] at h
  obtain ⟨a, ha, hq⟩ := h
  rw [List.mem_range'_1] at ha
  dsimp only at hq
  split at hq
  · injection hq with hq
    subst hq
    exact ⟨rfl, by omega, by omega⟩
  · exact Option.noConfusion hq

theorem lookupHeader_buildHeaders_bounds {ws : Ws} {n : String} {c : Nat}
    (h : lookupHeader (buildHeaders ws) n = some c) : 1 ≤ c ∧ c ≤ ws.maxColumn := by
  unfold lookupHeader at h
  rw [Option.map_eq_some'] at h
  obtain ⟨q, hq, hc⟩ := h
  have hmem := List.mem_reverse.mp (List.mem_of_find?_eq_some hq)
  have := (mem_buildHeaders hmem).2
  omega

theorem lookupHeader_buildHeaders_inj {ws : Ws} {n1 n2 : String} {c : Nat}
    (h1 : lookupHeader (buildHeaders ws) n1 = some c)
    (h2 : lookupHeader (buildHeaders ws) n2 = some c) : n1 = n2 := by
  unfold lookupHeader at h1 h2
  rw [Option.map_eq_some'] at h1 h2
  obtain ⟨q1, hq1, hc1⟩ := h1
  obtain ⟨q2, hq2, hc2⟩ := h2
  have hm1 := (mem_buildHeaders (List.mem_reverse.mp (List.mem_of_find?_eq_some hq1))).1
  have hm2 := (mem_buildHeaders (List.mem_reverse.mp (List.mem_of_find?_eq_some hq2))).1
  have hp1 : q1.1 = n1 := by simpa using List.find?_some hq1
  have hp2 : q2.1 = n2 := by simpa using List.find?_some hq2
  rw [← hp1, ← hp2, hm1, hm2, hc1, hc2]

theorem buildHeaders_congr {ws ws' : Ws}
    (h1 : ws'.maxColumn = ws.maxColumn)
    (h2 : getRow ws'.rows 1 = getRow ws.rows 1) :
    buildHeaders ws' = buildHeaders ws := by
  unfold buildHeaders
  rw [h1]
  refine List.filterMap_congr ?_
  intro a _
  have : ws'.cell 1 a = ws.cell 1 a := by
    show getInRow (getRow ws'.rows 1) a = getInRow (getRow ws.rows 1) a
    rw [h2]
  rw [this]

/-! ### Which worksheets a row's processing can produce -/

theorem checkGrantDate_ws_shape (hs : List (String × Nat)) (ws : Ws) (r : Nat) :
    (checkGrantDate hs ws r).1 = ws ∨
    ∃ col x, lookupHeader hs "Date Of Grant" = some col ∧
      (checkGrantDate hs ws r).1 = ws.set r col x := by
  unfold checkGrantDate
  cases hcol : lookupHeader hs "Date Of Grant" with
  | none => left; rfl
  | some col =>
    dsimp only
    by_cases h0 : (ws.cell r col).value = PyVal.none
    · rw [if_pos h0]; left; rfl
    · rw [if_neg h0]
      by_cases hdt : isDatetime (ws.cell r col).value = true
      · rw [if_pos hdt]
        right
        exact ⟨col, _, rfl, rfl⟩
      · rw [if_neg hdt]
        cases hpd : parse_date (ws.cell r col).value with
        | ok tv =>
          right
          exact ⟨col, ⟨PyVal.date tv, GRANT_DATE_FORMAT⟩, rfl, rfl⟩
        | error e => left; rfl

theorem checkVestingDate_ws_shape (vt : Option String) (hs : List (String × Nat))
    (ws : Ws) (r : Nat) :
    (checkVestingDate vt hs ws r).1 = ws ∨
    ∃ col x, lookupHeader hs "Vesting Date" = some col ∧
      (checkVestingDate vt hs ws r).1 = ws.set r col x := by
  unfold checkVestingDate
  by_cases hvt : vt = some "CustomDate"
  case neg => rw [if_neg hvt]; left; rfl
  rw [if_pos hvt]
  cases hcol : lookupHeader hs "Vesting Date" with
  | none => left; rfl
  | some col =>
    dsimp only
    by_cases h0 : (ws.cell r col).value = PyVal.none
    · rw [if_pos h0]; left; rfl
    · rw [if_neg h0]
      by_cases hdt : isDatetime (ws.cell r col).value = true
      · rw [if_pos hdt]
        right
        exact ⟨col, _, rfl, rfl⟩
      · rw [if_neg hdt]
        cases hpd : parse_date (ws.cell r col).value with
        | ok tv =>
          right
          exact ⟨col, ⟨PyVal.date tv, VESTING_DATE_FORMAT⟩, rfl, rfl⟩
        | error e => left; rfl

theorem processRow_structure (hs : List (String × Nat)) (pl tl : List String)
    (ws : Ws) (r : Nat) (hr1 : 2 ≤ r) (hr2 : r ≤ ws.maxRow)
    (hcols : ∀ n c, lookupHeader hs n = some c → 1 ≤ c ∧ c ≤ ws.maxColumn) :
    (processRow hs pl tl ws r).1.maxRow = ws.maxRow ∧
    (processRow hs pl tl ws r).1.maxColumn = ws.maxColumn ∧
    getRow (processRow hs pl tl ws r).1.rows 1 = getRow ws.rows 1 := by
  have hPR : (processRow hs pl tl ws r).1 =
      (checkVestingDate (checkVestingDateType hs (checkGrantDate hs ws r).1 r).1 hs
        (checkGrantDate hs ws r).1 r).1 := rfl
  rw [hPR]
  rcases checkGrantDate_ws_shape hs ws r with hg | ⟨cg, xg, hcg, hg⟩
  · rw [hg]
    rcases checkVestingDate_ws_shape
        (checkVestingDateType hs ws r).1 hs ws r with hv | ⟨cv, xv, hcv, hv⟩
    · rw [hv]
      exact ⟨rfl, rfl, rfl⟩
    · rw [hv]
      obtain ⟨hb1, hb2⟩ := hcols _ _ hcv
      exact ⟨maxRow_set ws r cv xv (by omega) hr2,
        maxColumn_set ws r cv xv (by omega) hr2 hb2,
        getRow_set_ne ws r cv 1 xv (by omega)⟩
  · rw [hg]
    obtain ⟨hbg1, hbg2⟩ := hcols _ _ hcg
    have s1 := maxRow_set ws r cg xg (by omega) hr2
    have s2 := maxColumn_set ws r cg xg (by omega) hr2 hbg2
    have s3 := getRow_set_ne ws r cg 1 xg (by omega)
    rcases checkVestingDate_ws_shape
        (checkVestingDateType hs (ws.set r cg xg) r).1 hs (ws.set r cg xg) r with
      hv | ⟨cv, xv, hcv, hv⟩
    · rw [hv]
      exact ⟨s1, s2, s3⟩
    · rw [hv]
      obtain ⟨hbv1, hbv2⟩ := hcols _ _ hcv
      refine ⟨?_, ?_, ?_⟩
      · rw [maxRow_set _ r cv xv (by omega) (by rw [s1]; exact hr2), s1]
      · rw [maxColumn_set _ r cv xv (by omega) (by rw [s1]; exact hr2)
          (by rw [s2]; exact hbv2), s2]
      · rw [getRow_set_ne _ r cv 1 xv (by omega), s3]

theorem scanRows_structure (hs : List (String × Nat)) (pl tl : List String) :
    ∀ (rl : List Nat) (ws : Ws),
      (∀ r ∈ rl, 2 ≤ r ∧ r ≤ ws.maxRow) →
      (∀ n c, lookupHeader hs n = some c → 1 ≤ c ∧ c ≤ ws.maxColumn) →
      (scanRows hs pl tl ws rl).1.maxRow = ws.maxRow ∧
      (scanRows hs pl tl ws rl).1.maxColumn = ws.maxColumn ∧
      getRow (scanRows hs pl tl ws rl).1.rows 1 = getRow ws.rows 1 := by
  intro rl
  induction rl with
  | nil => intro ws _ _; exact ⟨rfl, rfl, rfl⟩
  | cons r rest ih =>
    intro ws hb hc
    obtain ⟨s1, s2, s3⟩ := processRow_structure hs pl tl ws r
      (hb r (List.mem_cons_self r rest)).1 (hb r (List.mem_cons_self r rest)).2 hc
    have hfst : (scanRows hs pl tl ws (r :: rest)).1 =
        (scanRows hs pl tl (processRow hs pl tl ws r).1 rest).1 := rfl
    rw [hfst]
    obtain ⟨q1, q2, q3⟩ := ih (processRow hs pl tl ws r).1
      (fun r' hr' => ⟨(hb r' (List.mem_cons_of_mem _ hr')).1,
        by rw [s1]; exact (hb r' (List.mem_cons_of_mem _ hr')).2⟩)
      (fun n c h => by rw [s2]; exact hc n c h)
    exact ⟨q1.trans s1, q2.trans s2, q3.trans s3⟩

/-! ### Row-local congruence: each pure check reads only its own cell -/

theorem checkEmployeeId_congr {hs : List (String × Nat)} {ws ws₂ : Ws} {r : Nat}
    (h : ∀ col, lookupHeader hs "Employee Id" = some col →
      (ws₂.cell r col).value = (ws.cell r col).value) :
    checkEmployeeId hs ws₂ r = checkEmployeeId hs ws r := by
  unfold checkEmployeeId
  cases hcol : lookupHeader hs "Employee Id" with
  | none => rfl
  | some col => dsimp only; rw [h col hcol]

theorem checkOptionsGranted_congr {hs : List (String × Nat)} {ws ws₂ : Ws} {r : Nat}
    (h : ∀ col, lookupHeader hs "Options Granted" = some col →
      (ws₂.cell r col).value = (ws.cell r col).value) :
    checkOptionsGranted hs ws₂ r = checkOptionsGranted hs ws r := by
  unfold checkOptionsGranted
  cases hcol : lookupHeader hs "Options Granted" with
  | none => rfl
  | some col => dsimp only; rw [h col hcol]

theorem checkPlanName_congr {hs : List (String × Nat)} {pl : List String}
    {ws ws₂ : Ws} {r : Nat}
    (h : ∀ col, lookupHeader hs "Plan Name" = some col →
      (ws₂.cell r col).value = (ws.cell r col).value) :
    checkPlanName hs pl ws₂ r = checkPlanName hs pl ws r := by
  unfold checkPlanName
  cases hcol : lookupHeader hs "Plan Name" with
  | none => rfl
  | some col => dsimp only; rw [h col hcol]

theorem checkGrantPrice_congr {hs : List (String × Nat)} {ws ws₂ : Ws} {r : Nat}
    (h : ∀ col, lookupHeader hs "Grant Price" = some col →
      (ws₂.cell r col).value = (ws.cell r col).value) :
    checkGrantPrice hs ws₂ r = checkGrantPrice hs ws r := by
  unfold checkGrantPrice
  cases hcol : lookupHeader hs "Grant Price" with
  | none => rfl
  | some col => dsimp only; rw [h col hcol]

theorem checkVestingTemplate_congr {hs : List (String × Nat)} {tl : List String}
    {ws ws₂ : Ws} {r : Nat}
    (h : ∀ col, lookupHeader hs "Vesting Template" = some col →
      (ws₂.cell r col).value = (ws.cell r col).value) :
    checkVestingTemplate hs tl ws₂ r = checkVestingTemplate hs tl ws r := by
  unfold checkVestingTemplate
  cases hcol : lookupHeader hs "Vesting Template" with
  | none => rfl
  | some col => dsimp only; rw [h col hcol]

theorem checkVestingDateType_congr {hs : List (String × Nat)} {ws ws₂ : Ws} {r : Nat}
    (h : ∀ col, lookupHeader hs "Vesting Date Type" = some col →
      (ws₂.cell r col).value = (ws.cell r col).value) :
    checkVestingDateType hs ws₂ r = checkVestingDateType hs ws r := by
  unfold checkVestingDateType
  cases hcol : lookupHeader hs "Vesting Date Type" with
  | none => rfl
  | some col => dsimp only; rw [h col hcol]

theorem checkActualVestingDay_congr {hs : List (String × Nat)} {ws ws₂ : Ws} {r : Nat}
    (h : ∀ col, lookupHeader hs "Actual Vesting Day" = some col →
      (ws₂.cell r col).value = (ws.cell r col).value) :
    checkActualVestingDay hs ws₂ r = checkActualVestingDay hs ws r := by
  unfold checkActualVestingDay
  cases hcol : lookupHeader hs "Actual Vesting Day" with
  | none => rfl
  | some col => dsimp only; rw [h col hcol]

/-! ### Cells outside a date check's own column are untouched -/

theorem checkGrantDate_cell_other {hs : List (String × Nat)} {ws : Ws} {r r' col : Nat}
    (h : ∀ cg, lookupHeader hs "Date Of Grant" = some cg → ¬ cg = col) :
    (checkGrantDate hs ws r).1.cell r' col = ws.cell r' col := by
  rcases checkGrantDate_ws_shape hs ws r with hg | ⟨cg, xg, hcg, hg⟩
  · rw [hg]
  · rw [hg]
    rcases cell_set_cases ws r cg r' col xg with h2 | ⟨_, hcc, _⟩
    · exact h2
    · exact absurd hcc.symm (h cg hcg)

theorem checkVestingDate_cell_other {vt : Option String} {hs : List (String × Nat)}
    {ws : Ws} {r r' col : Nat}
    (h : ∀ cv, lookupHeader hs "Vesting Date" = some cv → ¬ cv = col) :
    (checkVestingDate vt hs ws r).1.cell r' col = ws.cell r' col := by
  rcases checkVestingDate_ws_shape vt hs ws r with hv | ⟨cv, xv, hcv, hv⟩
  · rw [hv]
  · rw [hv]
    rcases cell_set_cases ws r cv r' col xv with h2 | ⟨_, hcc, _⟩
    · exact h2
    · exact absurd hcc.symm (h cv hcv)

/-! ### Idempotence of the two date checks -/

theorem checkGrantDate_idem {hs : List (String × Nat)} {ws ws₂ : Ws} {r : Nat}
    (hr : 1 ≤ r)
    (hb : ∀ col, lookupHeader hs "Date Of Grant" = some col → 1 ≤ col)
    (herr : (checkGrantDate hs ws r).2 = Option.none)
    (hcell : ∀ col, lookupHeader hs "Date Of Grant" = some col →
      ws₂.cell r col = (checkGrantDate hs ws r).1.cell r col) :
    checkGrantDate hs ws₂ r = (ws₂, Option.none) := by
  cases hcol : lookupHeader hs "Date Of Grant" with
  | none => unfold checkGrantDate; rw [hcol]
  | some col =>
    have hc := hcell col hcol
    have hb1 := hb col hcol
    unfold checkGrantDate at herr hc ⊢
    rw [hcol] at herr hc ⊢
    dsimp only at herr hc ⊢
    by_cases h0 : (ws.cell r col).value = PyVal.none
    · rw [if_pos h0] at herr
      exact Option.noConfusion herr
    · rw [if_neg h0] at herr hc
      by_cases hdt : isDatetime (ws.cell r col).value = true
      · rw [if_pos hdt] at hc
        have hc2 : ws₂.cell r col =
            { ws.cell r col with numberFormat := GRANT_DATE_FORMAT } := by
          rw [hc]
          exact cell_set_self ws r col _ hr hb1
        have hval : (ws₂.cell r col).value = (ws.cell r col).value := by rw [hc2]
        have hvne : (ws₂.cell r col).value ≠ PyVal.none := by rw [hval]; exact h0
        rw [if_neg (by rw [hval]; exact h0), if_pos (by rw [hval]; exact hdt)]
        have hfmt : { ws₂.cell r col with numberFormat := GRANT_DATE_FORMAT } =
            ws₂.cell r col := by rw [hc2]
        rw [hfmt]
        obtain ⟨-, hb2, -, hb3⟩ := bounds_of_value_ne_none hvne
        rw [set_cell_id ws₂ r col hb2 hb3]
      · rw [if_neg hdt] at hc herr
        cases hpd : parse_date (ws.cell r col).value with
        | error e =>
          rw [hpd] at herr
          exact Option.noConfusion herr
        | ok tv =>
          rw [hpd] at hc
          have hc2 : ws₂.cell r col = Cell.mk (PyVal.date tv) GRANT_DATE_FORMAT := by
            rw [hc]
            exact cell_set_self ws r col _ hr hb1
          have hvne : (ws₂.cell r col).value ≠ PyVal.none := by
            rw [hc2]
            exact fun hx => PyVal.noConfusion hx
          rw [if_neg hvne, if_pos (by rw [hc2]; rfl)]
          have hfmt : { ws₂.cell r col with numberFormat := GRANT_DATE_FORMAT } =
              ws₂.cell r col := by rw [hc2]
          rw [hfmt]
          obtain ⟨-, hb2, -, hb3⟩ := bounds_of_value_ne_none hvne
          rw [set_cell_id ws₂ r col hb2 hb3]

theorem checkVestingDate_idem {vt : Option String} {hs : List (String × Nat)}
    {ws ws₂ : Ws} {r : Nat}
    (hr : 1 ≤ r)
    (hb : ∀ col, lookupHeader hs "Vesting Date" = some col → 1 ≤ col)
    (herr : (checkVestingDate vt hs ws r).2 = Option.none)
    (hcell : ∀ col, lookupHeader hs "Vesting Date" = some col →
      ws₂.cell r col = (checkVestingDate vt hs ws r).1.cell r col) :
    checkVestingDate vt hs ws₂ r = (ws₂, Option.none) := by
  by_cases hvt : vt = some "CustomDate"
  case neg => unfold checkVestingDate; rw [if_neg hvt]
  cases hcol : lookupHeader hs "Vesting Date" with
  | none => unfold checkVestingDate; rw [if_pos hvt, hcol]
  | some col =>
    have hc := hcell col hcol
    have hb1 := hb col hcol
    unfold checkVestingDate at herr hc ⊢
    rw [if_pos hvt] at herr hc ⊢
    rw [hcol] at herr hc ⊢
    dsimp only at herr hc ⊢
    by_cases h0 : (ws.cell r col).value = PyVal.none
    · rw [if_pos h0] at herr
      exact Option.noConfusion herr
    · rw [if_neg h0] at herr hc
      by_cases hdt : isDatetime (ws.cell r col).value = true
      · rw [if_pos hdt] at hc
        have hc2 : ws₂.cell r col =
            { ws.cell r col with numberFormat := VESTING_DATE_FORMAT } := by
          rw [hc]
          exact cell_set_self ws r col _ hr hb1
        have hval : (ws₂.cell r col).value = (ws.cell r col).value := by rw [hc2]
        have hvne : (ws₂.cell r col).value ≠ PyVal.none := by rw [hval]; exact h0
        rw [if_neg (by rw [hval]; exact h0), if_pos (by rw [hval]; exact hdt)]
        have hfmt : { ws₂.cell r col with numberFormat := VESTING_DATE_FORMAT } =
            ws₂.cell r col := by rw [hc2]
        rw [hfmt]
        obtain ⟨-, hb2, -, hb3⟩ := bounds_of_value_ne_none hvne
        rw [set_cell_id ws₂ r col hb2 hb3]
      · rw [if_neg hdt] at hc herr
        cases hpd : parse_date (ws.cell r col).value with
        | error e =>
          rw [hpd] at herr
          exact Option.noConfusion herr
        | ok tv =>
          rw [hpd] at hc
          have hc2 : ws₂.cell r col = Cell.mk (PyVal.date tv) VESTING_DATE_FORMAT := by
            rw [hc]
            exact cell_set_self ws r col _ hr hb1
          have hvne : (ws₂.cell r col).value ≠ PyVal.none := by
            rw [hc2]
            exact fun hx => PyVal.noConfusion hx
          rw [if_neg hvne, if_pos (by rw [hc2]; rfl)]
          have hfmt : { ws₂.cell r col with numberFormat := VESTING_DATE_FORMAT } =
              ws₂.cell r col := by rw [hc2]
          rw [hfmt]
          obtain ⟨-, hb2, -, hb3⟩ := bounds_of_value_ne_none hvne
          rw [set_cell_id ws₂ r col hb2 hb3]

/-! ### Idempotence of a whole row's processing -/

theorem processRow_other_rows (hs : List (String × Nat)) (pl tl : List String)
    (ws : Ws) (r r' : Nat) (h : r' ≠ r) :
    getRow (processRow hs pl tl ws r).1.rows r' = getRow ws.rows r' := by
  have hPR : (processRow hs pl tl ws r).1 =
      (checkVestingDate (checkVestingDateType hs (checkGrantDate hs ws r).1 r).1 hs
        (checkGrantDate hs ws r).1 r).1 := rfl
  rw [hPR]
  have hg : getRow (checkGrantDate hs ws r).1.rows r' = getRow ws.rows r' := by
    rcases checkGrantDate_ws_shape hs ws r with h1 | ⟨cg, xg, -, h1⟩
    · rw [h1]
    · rw [h1]
      exact getRow_set_ne ws r cg r' xg h
  rcases checkVestingDate_ws_shape
      (checkVestingDateType hs (checkGrantDate hs ws r).1 r).1 hs
      (checkGrantDate hs ws r).1 r with h2 | ⟨cv, xv, -, h2⟩
  · rw [h2]
    exact hg
  · rw [h2, getRow_set_ne _ r cv r' xv h]
    exact hg

theorem scanRows_other_rows (hs : List (String × Nat)) (pl tl : List String) :
    ∀ (rl : List Nat) (ws : Ws) (r' : Nat), r' ∉ rl →
      getRow (scanRows hs pl tl ws rl).1.rows r' = getRow ws.rows r' := by
  intro rl
  induction rl with
  | nil => intro ws r' _; rfl
  | cons r rest ih =>
    intro ws r' hmem
    have h1 : r' ≠ r := fun hx => hmem (hx ▸ List.mem_cons_self r rest)
    have h2 : r' ∉ rest := fun hx => hmem (List.mem_cons_of_mem _ hx)
    have hfst : (scanRows hs pl tl ws (r :: rest)).1 =
        (scanRows hs pl tl (processRow hs pl tl ws r).1 rest).1 := rfl
    rw [hfst, ih _ r' h2, processRow_other_rows hs pl tl ws r r' h1]

theorem processRow_idem (hs : List (String × Nat)) (pl tl : List String)
    (ws ws₂ : Ws) (r : Nat) (hr : 1 ≤ r)
    (hinj : ∀ n1 n2 c, lookupHeader hs n1 = some c →
      lookupHeader hs n2 = some c → n1 = n2)
    (hb : ∀ n c, lookupHeader hs n = some c → 1 ≤ c)
    (herr : (processRow hs pl tl ws r).2 = [])
    (hrow : ∀ c, ws₂.cell r c = (processRow hs pl tl ws r).1.cell r c) :
    processRow hs pl tl ws₂ r = (ws₂, []) := by
  have herr9 : List.filterMap id
      [checkEmployeeId hs ws r, checkOptionsGranted hs ws r, checkPlanName hs pl ws r,
       (checkGrantDate hs ws r).2,
       checkGrantPrice hs (checkGrantDate hs ws r).1 r,
       checkVestingTemplate hs tl (checkGrantDate hs ws r).1 r,
       (checkVestingDateType hs (checkGrantDate hs ws r).1 r).2,
       (checkVestingDate (checkVestingDateType hs (checkGrantDate hs ws r).1 r).1 hs
         (checkGrantDate hs ws r).1 r).2,
       checkActualVestingDay hs
         (checkVestingDate (checkVestingDateType hs (checkGrantDate hs ws r).1 r).1 hs
           (checkGrantDate hs ws r).1 r).1 r] = [] := herr
  have hall := List.filterMap_eq_nil_iff.mp herr9
  have he1 : checkEmployeeId hs ws r = Option.none := hall _ (List.mem_cons_self _ _)
  have he2 : checkOptionsGranted hs ws r = Option.none := hall _ (List.mem_cons_of_mem _ (List.mem_cons_self _ _))
  have he3 : checkPlanName hs pl ws r = Option.none := hall _ (List.mem_cons_of_mem _ (List.mem_cons_of_mem _ (List.mem_cons_self _ _)))
  have he4 : (checkGrantDate hs ws r).2 = Option.none := hall _ (List.mem_cons_of_mem _ (List.mem_cons_of_mem _ (List.mem_cons_of_mem _ (List.mem_cons_self _ _))))
  have he5 : checkGrantPrice hs (checkGrantDate hs ws r).1 r = Option.none :=
    hall _ (List.mem_cons_of_mem _ (List.mem_cons_of_mem _ (List.mem_cons_of_mem _ (List.mem_cons_of_mem _ (List.mem_cons_self _ _)))))
  have he6 : checkVestingTemplate hs tl (checkGrantDate hs ws r).1 r = Option.none :=
    hall _ (List.mem_cons_of_mem _ (List.mem_cons_of_mem _ (List.mem_cons_of_mem _ (List.mem_cons_of_mem _ (List.mem_cons_of_mem _ (List.mem_cons_self _ _))))))
  have he7 : (checkVestingDateType hs (checkGrantDate hs ws r).1 r).2 = Option.none :=
    hall _ (List.mem_cons_of_mem _ (List.mem_cons_of_mem _ (List.mem_cons_of_mem _ (List.mem_cons_of_mem _ (List.mem_cons_of_mem _ (List.mem_cons_of_mem _ (List.mem_cons_self _ _)))))))
  have he8 : (checkVestingDate (checkVestingDateType hs (checkGrantDate hs ws r).1 r).1 hs
      (checkGrantDate hs ws r).1 r).2 = Option.none := hall _ (List.mem_cons_of_mem _ (List.mem_cons_of_mem _ (List.mem_cons_of_mem _ (List.mem_cons_of_mem _ (List.mem_cons_of_mem _ (List.mem_cons_of_mem _ (List.mem_cons_of_mem _ (List.mem_cons_self _ _))))))))
  have he9 : checkActualVestingDay hs
      (checkVestingDate (checkVestingDateType hs (checkGrantDate hs ws r).1 r).1 hs
        (checkGrantDate hs ws r).1 r).1 r = Option.none := hall _ (List.mem_cons_of_mem _ (List.mem_cons_of_mem _ (List.mem_cons_of_mem _ (List.mem_cons_of_mem _ (List.mem_cons_of_mem _ (List.mem_cons_of_mem _ (List.mem_cons_of_mem _ (List.mem_cons_of_mem _ (List.mem_cons_self _ _)))))))))
  have hpresg : ∀ n col, ¬ n = "Vesting Date" → lookupHeader hs n = some col →
      (processRow hs pl tl ws r).1.cell r col = (checkGrantDate hs ws r).1.cell r col := by
    intro n col hn2 hcol
    exact checkVestingDate_cell_other
      (fun cv hcv hx => hn2 (hinj n "Vesting Date" col hcol (by rw [← hx]; exact hcv)))
  have hpres : ∀ n col, ¬ n = "Date Of Grant" → ¬ n = "Vesting Date" →
      lookupHeader hs n = some col →
      (ws₂.cell r col).value = (ws.cell r col).value := by
    intro n col hn1 hn2 hcol
    rw [hrow col, hpresg n col hn2 hcol,
      checkGrantDate_cell_other
        (fun cg hcg hx => hn1 (hinj n "Date Of Grant" col hcol (by rw [← hx]; exact hcg)))]
  have hG2 : checkGrantDate hs ws₂ r = (ws₂, Option.none) := by
    refine checkGrantDate_idem hr (fun col hcol => hb _ _ hcol) he4 ?_
    intro col hcol
    rw [hrow col]
    exact hpresg "Date Of Grant" col (by decide) hcol
  have hVT2 : checkVestingDateType hs ws₂ r =
      checkVestingDateType hs (checkGrantDate hs ws r).1 r := by
    refine checkVestingDateType_congr ?_
    intro col hcol
    rw [hrow col, hpresg "Vesting Date Type" col (by decide) hcol]
  have hV2 : checkVestingDate (checkVestingDateType hs (checkGrantDate hs ws r).1 r).1
      hs ws₂ r = (ws₂, Option.none) := by
    refine checkVestingDate_idem hr (fun col hcol => hb _ _ hcol) he8 ?_
    intro col hcol
    rw [hrow col]
    rfl
  have hE1 : checkEmployeeId hs ws₂ r = Option.none := by
    rw [checkEmployeeId_congr
      (fun col hcol => hpres "Employee Id" col (by decide) (by decide) hcol)]
    exact he1
  have hE2 : checkOptionsGranted hs ws₂ r = Option.none := by
    rw [checkOptionsGranted_congr
      (fun col hcol => hpres "Options Granted" col (by decide) (by decide) hcol)]
    exact he2
  have hE3 : checkPlanName hs pl ws₂ r = Option.none := by
    rw [checkPlanName_congr
      (fun col hcol => hpres "Plan Name" col (by decide) (by decide) hcol)]
    exact he3
  have hE5 : checkGrantPrice hs ws₂ r = Option.none :=
    Eq.trans (checkGrantPrice_congr (fun col hcol => by
      rw [hrow col, hpresg "Grant Price" col (by decide) hcol])) he5
  have hE6 : checkVestingTemplate hs tl ws₂ r = Option.none :=
    Eq.trans (checkVestingTemplate_congr (fun col hcol => by
      rw [hrow col, hpresg "Vesting Template" col (by decide) hcol])) he6
  have hE9 : checkActualVestingDay hs ws₂ r = Option.none :=
    Eq.trans (checkActualVestingDay_congr (fun col _ => by
      rw [hrow col]; rfl)) he9
  have hPR2 : processRow hs pl tl ws₂ r =
      ((checkVestingDate (checkVestingDateType hs (checkGrantDate hs ws₂ r).1 r).1 hs
        (checkGrantDate hs ws₂ r).1 r).1,
       List.filterMap id
        [checkEmployeeId hs ws₂ r, checkOptionsGranted hs ws₂ r, checkPlanName hs pl ws₂ r,
         (checkGrantDate hs ws₂ r).2,
         checkGrantPrice hs (checkGrantDate hs ws₂ r).1 r,
         checkVestingTemplate hs tl (checkGrantDate hs ws₂ r).1 r,
         (checkVestingDateType hs (checkGrantDate hs ws₂ r).1 r).2,
         (checkVestingDate (checkVestingDateType hs (checkGrantDate hs ws₂ r).1 r).1 hs
           (checkGrantDate hs ws₂ r).1 r).2,
         checkActualVestingDay hs
           (checkVestingDate (checkVestingDateType hs (checkGrantDate hs ws₂ r).1 r).1 hs
             (checkGrantDate hs ws₂ r).1 r).1 r]) := rfl
  rw [hPR2, hG2]
  dsimp only
  rw [hVT2, hV2]
  dsimp only
  rw [hE1, hE2, hE3, hE5, hE6, he7, hE9]
  rfl

theorem scanRows_idem (hs : List (String × Nat)) (pl tl : List String)
    (hinj : ∀ n1 n2 c, lookupHeader hs n1 = some c →
      lookupHeader hs n2 = some c → n1 = n2)
    (hb : ∀ n c, lookupHeader hs n = some c → 1 ≤ c) :
    ∀ (rl : List Nat) (ws : Ws), rl.Nodup → (∀ r ∈ rl, 1 ≤ r) →
      (scanRows hs pl tl ws rl).2 = [] →
      scanRows hs pl tl (scanRows hs pl tl ws rl).1 rl =
        ((scanRows hs pl tl ws rl).1, []) := by
  intro rl
  induction rl with
  | nil => intro ws _ _ _; rfl
  | cons r rest ih =>
    intro ws hnd hb1 herr
    have hsplit : (scanRows hs pl tl ws (r :: rest)).2 =
        (if (processRow hs pl tl ws r).2.isEmpty then [] else
          [(toString r, (processRow hs pl tl ws r).2)]) ++
        (scanRows hs pl tl (processRow hs pl tl ws r).1 rest).2 := rfl
    rw [hsplit] at herr
    have hperr : (processRow hs pl tl ws r).2 = [] := by
      by_cases hpe : (processRow hs pl tl ws r).2.isEmpty = true
      · exact List.isEmpty_iff.mp hpe
      · rw [if_neg hpe] at herr
        exact absurd herr (by simp)
    have hrerr : (scanRows hs pl tl (processRow hs pl tl ws r).1 rest).2 = [] :=
      (List.append_eq_nil.mp herr).2
    have hWrow : ∀ c,
        ((scanRows hs pl tl (processRow hs pl tl ws r).1 rest).1).cell r c =
          (processRow hs pl tl ws r).1.cell r c := by
      intro c
      show getInRow (getRow _ r) c = getInRow (getRow _ r) c
      rw [scanRows_other_rows hs pl tl rest (processRow hs pl tl ws r).1 r
        (List.nodup_cons.mp hnd).1]
    have hidem := processRow_idem hs pl tl ws
      ((scanRows hs pl tl (processRow hs pl tl ws r).1 rest).1) r
      (hb1 r (List.mem_cons_self r rest)) hinj hb hperr hWrow
    have hIH := ih (processRow hs pl tl ws r).1 (List.nodup_cons.mp hnd).2
      (fun r' hr' => hb1 r' (List.mem_cons_of_mem _ hr')) hrerr
    have hfst : (scanRows hs pl tl ws (r :: rest)).1 =
        (scanRows hs pl tl (processRow hs pl tl ws r).1 rest).1 := rfl
    rw [hfst]
    have hstep : scanRows hs pl tl
        ((scanRows hs pl tl (processRow hs pl tl ws r).1 rest).1) (r :: rest) =
        ((scanRows hs pl tl (processRow hs pl tl
            ((scanRows hs pl tl (processRow hs pl tl ws r).1 rest).1) r).1 rest).1,
         (if (processRow hs pl tl
              ((scanRows hs pl tl (processRow hs pl tl ws r).1 rest).1) r).2.isEmpty
          then []
          else [(toString r, (processRow hs pl tl
            ((scanRows hs pl tl (processRow hs pl tl ws r).1 rest).1) r).2)]) ++
         (scanRows hs pl tl (processRow hs pl tl
            ((scanRows hs pl tl (processRow hs pl tl ws r).1 rest).1) r).1 rest).2) := rfl
    rw [hstep, hidem]
    dsimp only
    rw [hIH]
    rfl

/-- **C8.** The validator is idempotent.  The embedding is a pure
function, so a second run on the same unmodified input and schema
returns the same outcome by reflexivity (first conjunct); substantively,
re-validating the committed output of a successful run succeeds again
with the internal report "Valid", performs no further mutation (the
second run's workbook equals its input), and persists that same
workbook. -/
theorem validator_idempotent (ws : Ws) (key : String)
    (db : List (String × CompanyEntry))
    (h : (validate_and_format_dates_inplace ws key db).success = true) :
    validate_and_format_dates_inplace ws key db =
      validate_and_format_dates_inplace ws key db ∧
    (validate_and_format_dates_inplace
        (validate_and_format_dates_inplace ws key db).mem key db).report =
      ⟨"Valid", [], []⟩ ∧
    (validate_and_format_dates_inplace
        (validate_and_format_dates_inplace ws key db).mem key db).success = true ∧
    (validate_and_format_dates_inplace
        (validate_and_format_dates_inplace ws key db).mem key db).mem =
      (validate_and_format_dates_inplace ws key db).mem ∧
    (validate_and_format_dates_inplace
        (validate_and_format_dates_inplace ws key db).mem key db).disk =
      (validate_and_format_dates_inplace ws key db).mem := by
  refine ⟨rfl, ?_⟩
  by_cases hh : missingHeaders ws = []
  case neg => rw [run_header_fail hh] at h; simp at h
  cases hr : resolveCompany db key with
  | none => rw [run_fatal hh hr] at h; simp at h
  | some pt =>
    obtain ⟨p, t⟩ := pt
    by_cases hsc : (scanRows (buildHeaders ws) p t ws (rowIndices ws)).2 = []
    case neg => rw [run_rowfail hh hr hsc] at h; simp at h
    rw [run_commit hh hr hsc]
    dsimp only
    have hbnd : ∀ n c, lookupHeader (buildHeaders ws) n = some c →
        1 ≤ c ∧ c ≤ ws.maxColumn :=
      fun n c hc => lookupHeader_buildHeaders_bounds hc
    have hrows : ∀ r ∈ rowIndices ws, 2 ≤ r ∧ r ≤ ws.maxRow := by
      intro r hrm
      rw [rowIndices, List.mem_range'_1] at hrm
      omega
    obtain ⟨s1, s2, s3⟩ :=
      scanRows_structure (buildHeaders ws) p t (rowIndices ws) ws hrows hbnd
    have hBH : buildHeaders ((scanRows (buildHeaders ws) p t ws (rowIndices ws)).1) =
        buildHeaders ws := buildHeaders_congr s2 s3
    have hmiss : missingHeaders ((scanRows (buildHeaders ws) p t ws (rowIndices ws)).1) = [] := by
      unfold missingHeaders
      rw [hBH]
      exact hh
    have hRI : rowIndices ((scanRows (buildHeaders ws) p t ws (rowIndices ws)).1) =
        rowIndices ws := by
      show List.range' 2 ((scanRows (buildHeaders ws) p t ws (rowIndices ws)).1.maxRow - 1) =
        rowIndices ws
      rw [s1]
      rfl
    have hnd : (rowIndices ws).Nodup := by
      rw [rowIndices]
      exact List.nodup_range' 2 (ws.maxRow - 1) 1 Nat.one_pos
    have hone : ∀ r ∈ rowIndices ws, 1 ≤ r := by
      intro r hrm
      have := (hrows r hrm).1
      omega
    have hinj : ∀ n1 n2 c, lookupHeader (buildHeaders ws) n1 = some c →
        lookupHeader (buildHeaders ws) n2 = some c → n1 = n2 :=
      fun _ _ _ h1 h2 => lookupHeader_buildHeaders_inj h1 h2
    have hb1 : ∀ n c, lookupHeader (buildHeaders ws) n = some c → 1 ≤ c :=
      fun n c hc => (hbnd n c hc).1
    have hscan2 := scanRows_idem (buildHeaders ws) p t hinj hb1 (rowIndices ws) ws
      hnd hone hsc
    have hsc2 : (scanRows
        (buildHeaders ((scanRows (buildHeaders ws) p t ws (rowIndices ws)).1)) p t
        ((scanRows (buildHeaders ws) p t ws (rowIndices ws)).1)
        (rowIndices ((scanRows (buildHeaders ws) p t ws (rowIndices ws)).1))).2 = [] := by
      rw [hBH, hRI, hscan2]
    rw [run_commit hmiss hr hsc2]
    have hmem2 : (scanRows
        (buildHeaders ((scanRows (buildHeaders ws) p t ws (rowIndices ws)).1)) p t
        ((scanRows (buildHeaders ws) p t ws (rowIndices ws)).1)
        (rowIndices ((scanRows (buildHeaders ws) p t ws (rowIndices ws)).1))).1 =
        (scanRows (buildHeaders ws) p t ws (rowIndices ws)).1 := by
      rw [hBH, hRI, hscan2]
    exact ⟨rfl, rfl, hmem2, hmem2⟩

/-- **C8 witness** at the fully valid one-row workbook. -/
theorem validator_idempotent_witness :
    (validate_and_format_dates_inplace
        (validate_and_format_dates_inplace fxWsOk "acme" fxDbAcme).mem "acme" fxDbAcme).report =
      ⟨"Valid", [], []⟩ ∧
    (validate_and_format_dates_inplace
        (validate_and_format_dates_inplace fxWsOk "acme" fxDbAcme).mem "acme" fxDbAcme).success = true ∧
    (validate_and_format_dates_inplace
        (validate_and_format_dates_inplace fxWsOk "acme" fxDbAcme).mem "acme" fxDbAcme).mem =
      (validate_and_format_dates_inplace fxWsOk "acme" fxDbAcme).mem ∧
    (validate_and_format_dates_inplace
        (validate_and_format_dates_inplace fxWsOk "acme" fxDbAcme).mem "acme" fxDbAcme).disk =
      (validate_and_format_dates_inplace fxWsOk "acme" fxDbAcme).mem :=
  (validator_idempotent fxWsOk "acme" fxDbAcme (by decide)).2

end ExcelAutomate
